import Mathlib

/-!
Verification development for the HORUS anomaly-detection engine.

The Rust sources are shallowly embedded: machine integers (`u32`, `usize`)
become `Nat`, `i64` timestamps become `Int` (seconds since epoch, matching
`chrono::NaiveDateTime` subtraction which yields exact second durations),
and `f32` values become `Rat`.  The two genuinely floating-point helpers
(`User::haversine_distance`, which needs trigonometry, and `f32::log2`)
are abstracted into an explicit oracle parameter `GeoOracle`; every
definition that calls them takes the oracle as an argument and every
theorem quantifies over it, so nothing proved depends on a particular
choice of those two functions beyond explicitly stated hypotheses.
Regex field extraction in the parsers is embedded at the capture level:
a record of the optional captured strings, with the fixed-format
timestamp parser abstracted as a function parameter.
-/

/-! ## IPv4 addresses (`std::net::Ipv4Addr` viewed as `u32`) -/

/-- Build the `u32` view of a dotted-quad IPv4 address, as
`u32::from(Ipv4Addr)` does. -/
def ipv4 (a b c d : Nat) : Nat :=
  ((a * 256 + b) * 256 + c) * 256 + d

/-- First octet of the `u32` view. -/
def ipOctet1 (ip : Nat) : Nat := ip / 16777216 % 256

/-- Second octet of the `u32` view. -/
def ipOctet2 (ip : Nat) : Nat := ip / 65536 % 256

/-- `Ipv4Addr::is_private`: 10/8, 172.16/12, 192.168/16. -/
def ipIsPrivate (ip : Nat) : Bool :=
  ipOctet1 ip == 10
    || (ipOctet1 ip == 172 && 16 ≤ ipOctet2 ip && ipOctet2 ip ≤ 31)
    || (ipOctet1 ip == 192 && ipOctet2 ip == 168)

/-- `Ipv4Addr::is_loopback`: 127/8. -/
def ipIsLoopback (ip : Nat) : Bool := ipOctet1 ip == 127

/-- `Ipv4Addr::is_link_local`: 169.254/16. -/
def ipIsLinkLocal (ip : Nat) : Bool :=
  ipOctet1 ip == 169 && ipOctet2 ip == 254

/-- `Ipv4Addr::is_multicast`: 224/4. -/
def ipIsMulticast (ip : Nat) : Bool :=
  224 ≤ ipOctet1 ip && ipOctet1 ip ≤ 239

/-- `Ipv4Addr::is_broadcast`: 255.255.255.255. -/
def ipIsBroadcast (ip : Nat) : Bool := ip == ipv4 255 255 255 255

/-- `Ipv4Addr::is_documentation`: 192.0.2/24, 198.51.100/24, 203.0.113/24. -/
def ipIsDocumentation (ip : Nat) : Bool :=
  ip / 256 == ipv4 192 0 2 0 / 256
    || ip / 256 == ipv4 198 51 100 0 / 256
    || ip / 256 == ipv4 203 0 113 0 / 256

/-- `Ipv4Addr::is_unspecified`: 0.0.0.0. -/
def ipIsUnspecified (ip : Nat) : Bool := ip == 0

/-! ## IP intelligence store (`src/queries/ip.rs`)

The three range tables (`IpLoc`, `Proxy`, `Asn`) share one lookup
algorithm: `binary_search_by` with a comparator that treats "inside the
`[lower, upper]` interval" as `Equal`, "row above the ip" as `Greater`,
"row below" as `Less`.  We embed the table rows as `(lower, upper,
payload)` triples and `slice::binary_search_by` as a fuel-indexed loop
(the fuel is an artifact of totality; `length + 1` steps always
suffice because the window shrinks every iteration). -/

/-- The payload of one `IpLoc` row (`country_code, country, state, city,
lat, lon`; `-` entries are loaded as `None`). -/
structure LocData where
  country_code : Option String
  country : Option String
  state : Option String
  city : Option String
  lat : Rat
  lon : Rat
  deriving Repr, DecidableEq

/-- A range-table row: `lower` and `upper` IPv4 bounds as `u32`, plus a
payload (location data, `Unit` for the proxy table, `Option String` for
the ASN table). -/
def RangeRow (α : Type) : Type := Nat × Nat × α

/-- Lower bound of a row. -/
def RangeRow.lower {α : Type} (r : RangeRow α) : Nat := r.1

/-- Upper bound of a row. -/
def RangeRow.upper {α : Type} (r : RangeRow α) : Nat := r.2.1

/-- Payload of a row. -/
def RangeRow.payload {α : Type} (r : RangeRow α) : α := r.2.2

/-- The comparator closure of `get_iploc` / `is_proxy` / `get_asn`:
`if l.lower > ip { Greater } else if l.upper < ip { Less } else { Equal }`. -/
def rowCmp (ip : Nat) {α : Type} (r : RangeRow α) : Ordering :=
  if r.lower > ip then Ordering.gt
  else if r.upper < ip then Ordering.lt
  else Ordering.eq

/-- Loop body of `slice::binary_search_by` over `xs[left..right)`.
Returns the index of a comparator-`Equal` element (`Ok(mid)`), or `none`
for `Err(_)` — the callers only distinguish hit from miss.  `fuel`
bounds the iteration count. -/
def bsGo {α : Type} (f : α → Ordering) (xs : List α) :
    Nat → Nat → Nat → Option Nat
  | 0, _, _ => none
  | fuel + 1, left, right =>
    if left < right then
      let mid := left + (right - left) / 2
      match xs.get? mid with
      | none => none
      | some x =>
        match f x with
        | Ordering.lt => bsGo f xs fuel (mid + 1) right
        | Ordering.gt => bsGo f xs fuel left mid
        | Ordering.eq => some mid
    else none

/-- `slice::binary_search_by`, returning the found index. -/
def binarySearchBy {α : Type} (f : α → Ordering) (xs : List α) : Option Nat :=
  bsGo f xs (xs.length + 1) 0 xs.length

/-- Shared body of the three lookups: binary-search the table and return
the matching row. -/
def rangeFind {α : Type} (tbl : List (RangeRow α)) (ip : Nat) :
    Option (RangeRow α) :=
  match binarySearchBy (rowCmp ip) tbl with
  | some i => tbl.get? i
  | none => none

/-- The three static tables of `IpDB`. -/
structure IpDB where
  iploc_db : List (RangeRow LocData)
  proxy_db : List (RangeRow Unit)
  asn_db : List (RangeRow (Option String))

/-- `IpDB::get_iploc`. -/
def IpDB.get_iploc (db : IpDB) (ip : Nat) : Option (RangeRow LocData) :=
  rangeFind db.iploc_db ip

/-- `IpDB::is_proxy`. -/
def IpDB.is_proxy (db : IpDB) (ip : Nat) : Bool :=
  (rangeFind db.proxy_db ip).isSome

/-- `IpDB::get_asn` (returns the found row's `asn` field, itself an
`Option`). -/
def IpDB.get_asn (db : IpDB) (ip : Nat) : Option String :=
  match rangeFind db.asn_db ip with
  | some r => r.payload
  | none => none

/-! ## Login records (`src/user/login.rs`) -/

/-- `Factor` (`src/user/login.rs`). -/
inductive Factor where
  | duoPush
  | none
  | bypass
  | rememberedDevice
  | smsPasscode
  | passcode
  | hardwareToken
  | phoneCall
  | securityKey
  deriving Repr, DecidableEq

/-- `Integration` (`src/user/login.rs`). -/
inductive Integration where
  | shibboleth
  | citrix
  | cuVpn
  | linux
  | adfs
  | dmp
  | rdp
  | passwordReset
  | splunk
  | other (s : String)
  | none
  deriving Repr, DecidableEq

/-- `LoginResult` (`src/user/login.rs`). -/
inductive LoginResult where
  | success
  | failure
  | fraud
  | none
  | other (s : String)
  deriving Repr, DecidableEq

/-- `Reason` (`src/user/login.rs`). -/
inductive Reason where
  | userApproved
  | bypass
  | rememberedDevice
  | validPasscode
  | trustedNetwork
  | noResponse
  | userCancelled
  | invalidPasscode
  | denyUnenrolledUser
  | lockedOut
  | userMistake
  | error
  | restrictedOFAC
  | none
  | other (s : String)
  deriving Repr, DecidableEq

/-- `FlagReason` (`src/user/login.rs`). -/
inductive FlagReason where
  | fraud
  | failure
  | dmp
  | travel
  deriving Repr, DecidableEq

/-- `impl From<&str> for Factor`. -/
def factorFromStr (fac : String) : Factor :=
  if fac = "Duo Push" then Factor.duoPush
  else if fac = "n/a" then Factor.none
  else if fac = "Bypass Status" then Factor.bypass
  else if fac = "Remembered Device" then Factor.rememberedDevice
  else if fac = "SMS Passcode" then Factor.smsPasscode
  else if fac = "Passcode" then Factor.passcode
  else if fac = "Hardware Token" then Factor.hardwareToken
  else if fac = "Phone Call" then Factor.phoneCall
  else if fac = "Touch ID (WebAuthn)" then Factor.securityKey
  else if fac = "Yubikey Passcode" then Factor.securityKey
  else if fac = "Security Key (WebAuthn)" then Factor.securityKey
  else if fac = "Bypass Code" then Factor.bypass
  else Factor.none

/-- `impl From<&str> for Integration`. -/
def integrationFromStr (int : String) : Integration :=
  if int = "Shibboleth" then Integration.shibboleth
  else if int = "Shibboleth External" then Integration.shibboleth
  else if int = "Radius Proxy Duo Only (Citrix)" then Integration.citrix
  else if int = "Clemson University VPN" then Integration.cuVpn
  else if int = "UNIX Application (Palmetto)" then Integration.linux
  else if int = "adfs.clemson.edu" then Integration.adfs
  else if int = "Device Management Portal Protected Resource" then Integration.dmp
  else if int = "Device Management Portal" then Integration.dmp
  else if int = "Microsoft RDP Gateway" then Integration.rdp
  else if int = "Password Reset on IDP" then Integration.passwordReset
  else if int = "School of Computing Linux Access" then Integration.linux
  else if int = "CU Splunk" then Integration.splunk
  else if int = "CECAS Linux Fastx Access" then Integration.linux
  else if int = "Infrastucture Linux Host" then Integration.linux
  else Integration.other int

/-- `impl From<&str> for LoginResult`. -/
def loginResultFromStr (res : String) : LoginResult :=
  if res = "SUCCESS" then LoginResult.success
  else if res = "FAILURE" then LoginResult.failure
  else if res = "FRAUD" then LoginResult.fraud
  else LoginResult.other res

/-- `impl From<&str> for Reason` (matches on the lowercased string). -/
def reasonFromStr (res : String) : Reason :=
  let s := res.toLower
  if s = "user approved" then Reason.userApproved
  else if s = "trusted network" then Reason.trustedNetwork
  else if s = "remembered device" then Reason.rememberedDevice
  else if s = "valid passcode" then Reason.validPasscode
  else if s = "bypass user" then Reason.bypass
  else if s = "no response" then Reason.noResponse
  else if s = "user cancelled" then Reason.userCancelled
  else if s = "invalid passcode" then Reason.invalidPasscode
  else if s = "locked out" then Reason.lockedOut
  else if s = "deny unenrolled user" then Reason.denyUnenrolledUser
  else if s = "error" then Reason.error
  else if s = "restricted ofac location" then Reason.restrictedOFAC
  else if s = "user mistake" then Reason.userMistake
  else Reason.other s

/-- `VPN_IPS` (`src/user/login.rs`): the three sentinel VPN addresses. -/
def VPN_IPS : List Nat :=
  [ipv4 130 127 255 220, ipv4 130 127 255 222, ipv4 0 0 0 0]

/-- `Login` (`src/user/login.rs`).  Timestamps are seconds, locations
are `(lat, lon)` pairs as stored by the parser. -/
structure Login where
  time : Int
  user : String
  device : Option String
  factor : Factor
  integration : Integration
  reason : Reason
  result : LoginResult
  ip : Option Nat
  city : Option String
  country : Option String
  state : Option String
  location : Option (Rat × Rat)
  is_relay : Bool
  asn : Option String
  flag_reasons : List FlagReason
  deriving Repr, DecidableEq

/-- `Login::is_vpn_ip`. -/
def Login.is_vpn_ip (l : Login) : Bool :=
  match l.ip with
  | some ip => VPN_IPS.contains ip
  | none => false

/-- `Login::is_priv_ip`. -/
def Login.is_priv_ip (l : Login) : Bool :=
  match l.ip with
  | some ip =>
    ipIsPrivate ip || ipIsLoopback ip || ipIsLinkLocal ip
      || ipIsMulticast ip || ipIsBroadcast ip || ipIsDocumentation ip
      || ipIsUnspecified ip
  | none => false

/-! ### The parser `Login::new`, embedded at regex-capture level

Each `OnceLock<Regex>` extractor either captures a string from the raw
line or does not; the embedding takes the record of those optional
captured strings as input.  The fixed-format timestamp parse
(`Local.datetime_from_str(_, "%F %T%.3f %Z")`) and the primary
`str::parse::<Ipv4Addr>` are abstracted as function parameters. -/

/-- The optional capture of each field regex of `Login::new` against one
raw line (after its `replace('\\', "")`). -/
structure RawCaps where
  user : Option String
  time : Option String
  device : Option String
  factor : Option String
  integration : Option String
  reason : Option String
  result : Option String
  ip : Option String
  deriving Repr

/-- The IP fallback chain of `Login::new`: dotted-quad parse, else the
literal `localhost`, else the first dot-separated hostname segment with
hyphens replaced by dots. -/
def extractIp (parseIpStr : String → Option Nat) (s : String) : Option Nat :=
  match parseIpStr s with
  | some ip => some ip
  | none =>
    if s = "localhost" then some (ipv4 127 0 0 1)
    else
      match s.splitOn "." with
      | [] => Option.none
      | seg :: _ => parseIpStr (seg.replace "-" ".")

/-- `Login::new` given the capture results: rejects on missing user,
user containing a space or equal to `"System"`, missing timestamp
capture, or failed timestamp parse; every other field falls back to its
default. -/
def loginNew (parseTime : String → Option Int)
    (parseIpStr : String → Option Nat) (db : IpDB) (c : RawCaps) :
    Option Login :=
  match c.user with
  | Option.none => Option.none
  | some user =>
    if user.data.contains ' ' || user == "System" then Option.none
    else
      match c.time with
      | Option.none => Option.none
      | some ts =>
        match parseTime ts with
        | Option.none => Option.none
        | some time =>
          let device := c.device
          let factor := (c.factor).elim Factor.none factorFromStr
          let integration := (c.integration).elim Integration.none integrationFromStr
          let reason := (c.reason).elim Reason.none reasonFromStr
          let result := (c.result).elim LoginResult.none loginResultFromStr
          let ip := c.ip.bind (extractIp parseIpStr)
          let loc := ip.bind db.get_iploc
          let country := loc.bind (fun r => r.payload.country_code)
          let state := loc.bind (fun r => r.payload.state)
          let city := loc.bind (fun r => r.payload.city)
          let location := loc.map (fun r => (r.payload.lat, r.payload.lon))
          let is_relay := (ip.map db.is_proxy).getD false
          let asn := ip.bind db.get_asn
          some
            { time := time, user := user, device := device, factor := factor,
              integration := integration, reason := reason, result := result,
              ip := ip, city := city, country := country, state := state,
              location := location, is_relay := is_relay, asn := asn,
              flag_reasons := [] }

/-! ## VPN logs (`src/user/vpnlog.rs`, `Splunk::correlate_vpn_logs`) -/

/-- `VpnLog` (`src/user/vpnlog.rs`). -/
structure VpnLog where
  time : Int
  vpn_ip : Nat
  source_ip : Nat
  dev_platform : String
  dev_mac : Option String
  user_agent : String
  correlate_prev : Bool
  city : Option String
  state : Option String
  country : Option String
  is_relay : Bool
  deriving Repr, DecidableEq

/-- `VpnLog::correlates`. -/
def VpnLog.correlates (self other : VpnLog) : Bool :=
  self.source_ip == other.source_ip
    || (self.dev_mac.isSome && self.dev_mac == other.dev_mac)

/-- One iteration of the loop of `Splunk::correlate_vpn_logs`
(`for i in 1..len`, modelled as `i in 0..len` with the `1 <= i` guard):
`if v[i-1].correlates(v[i]) { v[i-1].correlate_prev = true }`. -/
def corrStep (acc : List VpnLog) (i : Nat) : List VpnLog :=
  if 1 ≤ i then
    match acc.get? (i - 1), acc.get? i with
    | some a, some b =>
      if a.correlates b then
        acc.set (i - 1) { a with correlate_prev := true }
      else acc
    | _, _ => acc
  else acc

/-- `Splunk::correlate_vpn_logs`. -/
def correlate_vpn_logs (logs : List VpnLog) : List VpnLog :=
  (List.range logs.length).foldl corrStep logs

/-! ## Fact cache, investigated markers (`src/storage.rs`)

The `investigated_users` SQLite table (`name TEXT UNIQUE, time INTEGER`)
is embedded as an association list with at most one row per name.
`mark_investigated(_, true)` is a plain `INSERT`; on an existing row the
`UNIQUE` constraint makes the statement fail, the error is logged and
the write is dropped, so the model leaves the table unchanged.  `now` is
`Local::now().timestamp()` in epoch seconds. -/

/-- The persistent store, restricted to the table the claims are about. -/
structure Storage where
  investigated_users : List (String × Int)
  deriving Repr, DecidableEq

/-- `Storage::investigated`: a marker row exists and is younger than
24 hours (strict `<` on `now - marker_time`). -/
def Storage.investigated (s : Storage) (now : Int) (user : String) : Bool :=
  match s.investigated_users.lookup user with
  | some t => decide (now - t < 86400)
  | Option.none => false

/-- `Storage::mark_investigated`: `mark = true` runs
`INSERT INTO investigated_users VALUES (user, now)` (dropped when a row
with that name already exists, by the `UNIQUE` constraint); `mark =
false` runs `DELETE FROM investigated_users WHERE name = user`. -/
def Storage.mark_investigated (s : Storage) (now : Int) (user : String)
    (mark : Bool) : Storage :=
  if mark then
    if (s.investigated_users.lookup user).isSome then s
    else { s with investigated_users := s.investigated_users ++ [(user, now)] }
  else
    { s with investigated_users :=
        s.investigated_users.filter fun r => !(r.1 == user) }

/-! ## The user aggregate and scoring pipeline (`src/user/mod.rs`) -/

/-- `Location` (`src/user/mod.rs`): a user's HDTools location. -/
structure Location where
  city : String
  state : Option String
  country : Option String
  deriving Repr, DecidableEq

/-- `User` (`src/user/mod.rs`).  `creation_date` in epoch seconds. -/
structure User where
  name : String
  logins : List Login
  checked_login_count : Nat
  reasons : List FlagReason
  score : Nat
  location : Option Location
  creation_date : Option Int
  investigated : Bool
  deriving Repr, DecidableEq

/-- The two `f32` helpers that cannot be embedded exactly:
`User::haversine_distance` (meters, from two `(lat, lon)` pairs) and
`f32::log2`.  All pipeline definitions take this oracle as an explicit
parameter. -/
structure GeoOracle where
  hav : Rat × Rat → Rat × Rat → Rat
  log2q : Rat → Rat

/-- Append `n` copies of one flag to a login's `flag_reasons`
(`Vec::push` repeated `n` times). -/
def addFlags (n : Nat) (fr : FlagReason) (l : Login) : Login :=
  { l with flag_reasons := l.flag_reasons ++ List.replicate n fr }

/-- `self.reasons.push(r)`. -/
def pushReason (u : User) (r : FlagReason) : User :=
  { u with reasons := u.reasons ++ [r] }

/-- Map with the element index, starting at `i`. -/
def mapi {α : Type} (f : Nat → α → α) : Nat → List α → List α
  | _, [] => []
  | i, a :: rest => f i a :: mapi f (i + 1) rest

/-- `User::fraud`: count of checked records with `Result == Fraud`. -/
def User.fraud (u : User) : Nat :=
  ((u.logins.take u.checked_login_count).filter
    (fun l => l.result == LoginResult.fraud)).length

/-- The retry-success test of the inner loop of `User::failures`: a
strictly-earlier-indexed record with `Result == Success`, a time
difference of at most 30 minutes, and matching integration and IP. -/
def isRealFailure (logins : List Login) (i : Nat) : Bool :=
  match logins.get? i with
  | some li =>
    li.result == LoginResult.failure
      && !((List.range i).any fun j =>
        match logins.get? j with
        | some lj =>
          lj.result == LoginResult.success
            && decide (lj.time - li.time ≤ (1800 : Int))
            && lj.integration == li.integration && lj.ip == li.ip
        | Option.none => false)
  | Option.none => false

/-- `User::failures`: scan checked records, counting failures with no
matching later success (the scan order of the two `rev()` loops does not
affect the count). -/
def User.failures (u : User) : Nat :=
  ((List.range u.checked_login_count).filter (isRealFailure u.logins)).length

/-- `User::flag_fraud`: tag each checked `Fraud` record and return how
many there are (the loop count equals `User::fraud`). -/
def User.flag_fraud (u : User) : Nat × User :=
  let step := fun (i : Nat) (l : Login) =>
    if i < u.checked_login_count && l.result == LoginResult.fraud then
      addFlags 1 FlagReason.fraud l
    else l
  (u.fraud, { u with logins := mapi step 0 u.logins })

/-- Count of checked records with `Integration == Dmp` and
`Result == Failure` (the count returned by `User::flag_dmp`). -/
def User.dmpCount (u : User) : Nat :=
  ((u.logins.take u.checked_login_count).filter
    (fun l => l.integration == Integration.dmp
      && l.result == LoginResult.failure)).length

/-- `User::flag_dmp`. -/
def User.flag_dmp (u : User) : Nat × User :=
  let step := fun (i : Nat) (l : Login) =>
    if i < u.checked_login_count && l.integration == Integration.dmp
        && l.result == LoginResult.failure then
      addFlags 1 FlagReason.dmp l
    else l
  (u.dmpCount, { u with logins := mapi step 0 u.logins })

/-- The contains-then-push de-duplication of `User::in_state` (keeps the
first occurrence of each value, in order). -/
def rustDistinct {α : Type} [DecidableEq α] (l : List α) : List α :=
  l.foldl (fun acc s => if s ∈ acc then acc else acc ++ [s]) []

/-- The state names of checked non-VPN records, in order. -/
def User.nonVpnStates (u : User) : List String :=
  (u.logins.take u.checked_login_count).filterMap fun l =>
    if !l.is_vpn_ip then l.state else Option.none

/-- `User::in_state`. -/
def User.in_state (u : User) : Bool :=
  let states := rustDistinct u.nonVpnStates
  if states.length == 1 then
    states.get? 0 == some "South Carolina"
      || states.get? 0 == some "North Carolina"
  else if states.length == 2 then
    (states.contains "South Carolina" && states.contains "North Carolina")
      || (states.contains "South Carolina" && states.contains "Georgia")
  else false

/-- `Vec::dedup`: remove consecutive duplicates. -/
def rustDedupConsec {α : Type} [DecidableEq α] : List α → List α
  | [] => []
  | [a] => [a]
  | a :: b :: rest =>
    if a = b then rustDedupConsec (b :: rest)
    else a :: rustDedupConsec (b :: rest)

/-- The `(state, country)` pairs of checked non-VPN records having both,
in order (the `unzip`-ped input of `impossible_travel_precheck`). -/
def User.statePairs (u : User) : List (String × String) :=
  (u.logins.take u.checked_login_count).filterMap fun l =>
    if !l.is_vpn_ip then
      match l.state, l.country with
      | some s, some c => some (s, c)
      | _, _ => Option.none
    else Option.none

/-- `User::impossible_travel_precheck`. -/
def User.impossible_travel_precheck (u : User) : Bool :=
  let states := rustDedupConsec (u.statePairs.map Prod.fst)
  let countries := rustDedupConsec (u.statePairs.map Prod.snd)
  if countries.length > 1 then true
  else if states.length < 2 then false
  else true

/-- The eligibility filter of `User::impossible_travel`. -/
def travelEligible (l : Login) : Bool :=
  l.location.isSome && !l.is_vpn_ip && !l.is_priv_ip && !l.is_relay
    && !(l.integration == Integration.linux)

/-- Indices (into `logins`) of the checked travel-eligible records, in
order — the elements the filtered `Vec<&mut Login>` borrows. -/
def User.eligIdxs (u : User) : List Nat :=
  (List.range u.checked_login_count).filter fun i =>
    match u.logins.get? i with
    | some l => travelEligible l
    | Option.none => false

/-- One adjacent pair of the impossible-travel loop: the travel points
contributed and whether the pair is tagged.  `distance` is km; the
elapsed time is `|minutes|` with `num_minutes` truncating seconds toward
zero.  When the two records are less than a minute apart the `f32`
division by zero makes `kph` infinite, so the `kph >= 1000` branch is
taken and `log2(inf).min(15.0)` contributes exactly `15`. -/
def pairStep (G : GeoOracle) (prev next : Login) : Rat × Bool :=
  match prev.location, next.location with
  | some pa, some pb =>
    let distance := G.hav pa pb / 1000
    if distance < 250 then (0, false)
    else
      let m : Nat := (next.time - prev.time).natAbs / 60
      if m = 0 then (15, true)
      else
        let kph := distance * 60 / (m : Rat)
        if 1000 ≤ kph then (min (G.log2q kph) 15, true) else (0, false)
  | _, _ => (0, false)

/-- The per-pair results of the impossible-travel loop, in loop order. -/
def User.pairContribs (G : GeoOracle) (u : User) : List (Rat × Bool) :=
  let idxs := u.eligIdxs
  (List.range (idxs.length - 1)).map fun p =>
    match idxs.get? p, idxs.get? (p + 1) with
    | some i, some j =>
      match u.logins.get? i, u.logins.get? j with
      | some a, some b => pairStep G a b
      | _, _ => (0, false)
    | _, _ => (0, false)

/-- How many `FlagReason::Travel` pushes record `i` receives: one for
each tagged adjacent pair it belongs to. -/
def User.travelCount (G : GeoOracle) (u : User) (i : Nat) : Nat :=
  let idxs := u.eligIdxs
  let res := u.pairContribs G
  ((List.range (idxs.length - 1)).filter fun p =>
    (match res.get? p with | some r => r.2 | Option.none => false)
      && (idxs.get? p == some i || idxs.get? (p + 1) == some i)).length

/-- `User::impossible_travel`: accumulate the per-pair travel points and
tag both members of each triggering pair; `travel as usize` saturates at
zero and truncates. -/
def User.impossible_travel (G : GeoOracle) (u : User) : Nat × User :=
  let idxs := u.eligIdxs
  if idxs.length < 2 then (0, u)
  else
    let travel : Rat := ((u.pairContribs G).map Prod.fst).sum
    let step := fun (i : Nat) (l : Login) =>
      addFlags (u.travelCount G i) FlagReason.travel l
    ((Rat.floor travel).toNat, { u with logins := mapi step 0 u.logins })

/-- The reset block of `User::first_vibe_check` (zero score, clear
reasons, clear each record's flags). -/
def clearFlags (l : Login) : Login := { l with flag_reasons := [] }

/-- Transient state cleared for a re-run. -/
def resetTransient (u : User) : User :=
  { u with score := 0, reasons := [], logins := u.logins.map clearFlags }

/-- The PERFECT-history test: no checked record has a non-`Success`
result. -/
def User.perfectHistory (u : User) : Bool :=
  !((u.logins.take u.checked_login_count).any fun l =>
    !(l.result == LoginResult.success))

/-- `User::first_vibe_check` after the reset block. -/
def firstVibeCheckMain (G : GeoOracle) (u0 : User) : Bool × User :=
  if u0.perfectHistory then (true, u0)
  else if u0.in_state then (true, u0)
  else
    let f := u0.failures
    let u1 := if 0 < f then pushReason u0 FlagReason.failure else u0
    let fr := (u1.flag_fraud).1
    let u2 := (u1.flag_fraud).2
    let u3 := if 0 < fr then pushReason u2 FlagReason.fraud else u2
    let pc := u3.impossible_travel_precheck
    let tr := if pc then (u3.impossible_travel G).1 else 0
    let u4 := if pc then (u3.impossible_travel G).2 else u3
    let u5 :=
      if pc && 0 < tr then
        { u4 with score := u4.score + tr,
                  reasons := u4.reasons ++ [FlagReason.travel] }
      else u4
    let dm := (u5.flag_dmp).1
    let u6 := (u5.flag_dmp).2
    let u7 := if 0 < dm then pushReason u6 FlagReason.dmp else u6
    let u8 := { u7 with score := u7.score + f + fr * 20 + dm * 2 }
    (u8.reasons.isEmpty, u8)

/-- `User::first_vibe_check` (pass 1): returns `true` when the account
passes (is dropped as benign), and the mutated account state. -/
def User.first_vibe_check (G : GeoOracle) (u : User) : Bool × User :=
  if u.checked_login_count == 0 || u.logins.isEmpty then (true, u)
  else
    let u1 := if u.score ≠ 0 then resetTransient u else u
    firstVibeCheckMain G u1

/-! ## Ranking (`impl Ord for User`, `Store::run_duplex`) -/

/-- `impl Ord for User`: `other.score.cmp(&self.score)` — score
descending only. -/
def userCmp (self other : User) : Ordering :=
  compare other.score self.score

/-- `impl PartialOrd for User`: fraud-count descending first, ties by
score descending (always `Some`). -/
def userPartialCmp (self other : User) : Ordering :=
  match compare other.fraud self.fraud with
  | Ordering.lt => Ordering.lt
  | Ordering.eq => compare other.score self.score
  | Ordering.gt => Ordering.gt

/-- The final `users.sort()` of `Store::run_duplex`: a stable sort by
`Ord::cmp` (embedded as a stable insertion sort, which agrees with any
stable sort for this total preorder). -/
def rankUsers (users : List User) : List User :=
  List.insertionSort (fun u v => userCmp u v ≠ Ordering.gt) users

/-- The ordering the spec claims for the ranked list: fraud-count
descending primary, score descending secondary. -/
def specRankedPair (u v : User) : Prop :=
  u.fraud > v.fraud ∨ (u.fraud = v.fraud ∧ u.score ≥ v.score)

/-- The whole returned vector is ranked as the spec claims. -/
def specRanked (l : List User) : Prop := l.Pairwise specRankedPair

/-! ## Spec-side definitions

Definitions in this block follow the spec's words (for comparison with
the source-derived definitions above), plus concrete inputs used by
witnesses and counterexamples. -/

instance : DecidableRel specRankedPair := fun u v =>
  inferInstanceAs (Decidable (u.fraud > v.fraud ∨ (u.fraud = v.fraud ∧ u.score ≥ v.score)))

instance (l : List User) : Decidable (specRanked l) :=
  inferInstanceAs (Decidable (l.Pairwise specRankedPair))

/-- The failure count as the spec states it: checked `Failure` records
with no more-recent (earlier-scanned) checked `Success` record whose
timestamp is within 30 minutes **after** the failure and whose
integration and IP match. -/
def specFailures (u : User) : Nat :=
  ((List.range u.checked_login_count).filter fun i =>
    match u.logins.get? i with
    | some li =>
      li.result == LoginResult.failure
        && !((List.range i).any fun j =>
          match u.logins.get? j with
          | some lj =>
            lj.result == LoginResult.success
              && decide (li.time ≤ lj.time)
              && decide (lj.time - li.time ≤ (1800 : Int))
              && lj.integration == li.integration && lj.ip == li.ip
          | Option.none => false)
    | Option.none => false).length

/-- The country names of checked non-VPN records, in order (wherever a
country is present, whether or not the record also carries a state). -/
def User.nonVpnCountries (u : User) : List String :=
  (u.logins.take u.checked_login_count).filterMap fun l =>
    if !l.is_vpn_ip then l.country else Option.none

/-- The travel precheck as the claim states it: among ALL checked
records, strictly more than one distinct non-VPN country, or at least
two distinct non-VPN states — each field counted wherever it is
present, independently of the other.  (The code instead counts only
records carrying both fields; see `User.statePairs`.) -/
def specPrecheckAllChecked (u : User) : Prop :=
  1 < (User.nonVpnCountries u).toFinset.card
    ∨ 2 ≤ (User.nonVpnStates u).toFinset.card

instance (u : User) : Decidable (specPrecheckAllChecked u) :=
  inferInstanceAs (Decidable
    (1 < (User.nonVpnCountries u).toFinset.card
      ∨ 2 ≤ (User.nonVpnStates u).toFinset.card))

/-- The claim's hypothesis on a range table: rows sorted ascending by
lower bound, pairwise non-overlapping `[lower, upper]` intervals (for
nonempty intervals, non-overlap is exactly "one lies entirely below the
other"). -/
def wellFormedTable {α : Type} (tbl : List (RangeRow α)) : Prop :=
  (∀ r ∈ tbl, RangeRow.lower r ≤ RangeRow.upper r)
    ∧ List.Pairwise (fun a b => RangeRow.lower a ≤ RangeRow.lower b) tbl
    ∧ List.Pairwise (fun a b => RangeRow.upper a < RangeRow.lower b
        ∨ RangeRow.upper b < RangeRow.lower a) tbl

instance {α : Type} (tbl : List (RangeRow α)) : Decidable (wellFormedTable tbl) :=
  inferInstanceAs (Decidable
    ((∀ r ∈ tbl, RangeRow.lower r ≤ RangeRow.upper r)
      ∧ List.Pairwise (fun a b => RangeRow.lower a ≤ RangeRow.lower b) tbl
      ∧ List.Pairwise (fun a b => RangeRow.upper a < RangeRow.lower b
          ∨ RangeRow.upper b < RangeRow.lower a) tbl))

/-- What `correlate_vpn_logs` computes, element-wise: record `i` is
marked iff it correlates with record `i + 1`. -/
def corrTarget (logs : List VpnLog) : List VpnLog :=
  mapi
    (fun i a =>
      match logs.get? (i + 1) with
      | some b =>
        if a.correlates b then { a with correlate_prev := true } else a
      | Option.none => a)
    0 logs

/-! ### Concrete inputs for witnesses and counterexamples -/

/-- A geometry oracle with zero distances (its values are irrelevant to
the facts it witnesses). -/
def oracle0 : GeoOracle := { hav := fun _ _ => 0, log2q := fun _ => 10 }

/-- A geometry oracle reporting 9000 km between any two points. -/
def oracleW : GeoOracle := { hav := fun _ _ => 9000000, log2q := fun _ => 10 }

/-- An empty IP database. -/
def ipdbEmpty : IpDB := { iploc_db := [], proxy_db := [], asn_db := [] }

/-- A two-row location payload set and concrete well-formed tables. -/
def locDataA : LocData :=
  { country_code := some "US", country := some "United States of America",
    state := some "South Carolina", city := some "Clemson",
    lat := 34, lon := -82 }

/-- A second payload. -/
def locDataB : LocData :=
  { country_code := some "CN", country := some "China",
    state := some "Fujian", city := some "Fuzhou", lat := 26, lon := 119 }

/-- A concrete database with sorted, non-overlapping tables. -/
def ipdbW : IpDB :=
  { iploc_db := [(0, 5, locDataA), (10, 20, locDataB)],
    proxy_db := [(2, 2, ()), (7, 9, ())],
    asn_db := [(0, 5, some "AS1"), (6, 6, Option.none)] }

/-- A timestamp parser that accepts everything (time zero). -/
def parseTimeOk : String → Option Int := fun _ => some 0

/-- A dotted-quad parser that accepts nothing. -/
def parseIpNone : String → Option Nat := fun _ => Option.none

/-- A raw-capture record with a valid user and timestamp and nothing
else. -/
def capsBase : RawCaps :=
  { user := some "alice", time := some "2024-01-02 03:04:05.000 EST",
    device := Option.none, factor := Option.none,
    integration := Option.none, reason := Option.none,
    result := Option.none, ip := Option.none }

/-- A baseline login record. -/
def loginBase : Login :=
  { time := 0, user := "u", device := Option.none, factor := Factor.none,
    integration := Integration.none, reason := Reason.none,
    result := LoginResult.failure, ip := Option.none, city := Option.none,
    country := Option.none, state := Option.none, location := Option.none,
    is_relay := false, asn := Option.none, flag_reasons := [] }

/-- A user with no logins and score 30 (fraud count 0). -/
def userHiScore : User :=
  { name := "h", logins := [], checked_login_count := 0, reasons := [],
    score := 30, location := Option.none, creation_date := Option.none,
    investigated := false }

/-- A user with one fraud record and score 20 (fraud count 1). -/
def userFraudOne : User :=
  { name := "f", logins := [{ loginBase with result := LoginResult.fraud }],
    checked_login_count := 1, reasons := [], score := 20,
    location := Option.none, creation_date := Option.none,
    investigated := false }

/-- A user with score 0 but a stale `Travel` flag on its one (failed)
checked record: the reset of pass 1 is keyed on `score != 0`, so the
first run keeps the stale flag and the second run clears it. -/
def userDirty : User :=
  { name := "d",
    logins := [{ loginBase with flag_reasons := [FlagReason.travel] }],
    checked_login_count := 1, reasons := [], score := 0,
    location := Option.none, creation_date := Option.none,
    investigated := false }

/-- A clean user with one checked failure record. -/
def userClean : User :=
  { name := "c", logins := [loginBase], checked_login_count := 1,
    reasons := [], score := 0, location := Option.none,
    creation_date := Option.none, investigated := false }

/-- A user with two time-sorted checked records: a success 10 minutes
after a failure, same (absent) integration and IP. -/
def userSorted : User :=
  { name := "s",
    logins := [{ loginBase with result := LoginResult.success, time := 0 },
               { loginBase with result := LoginResult.failure, time := -600 }],
    checked_login_count := 2, reasons := [], score := 0,
    location := Option.none, creation_date := Option.none,
    investigated := false }

/-- A travel-eligible record at time 0. -/
def loginTA : Login :=
  { loginBase with
      result := LoginResult.success,
      location := some ((34 : Rat), -82),
      time := 0,
      ip := some (ipv4 8 8 8 8) }

/-- A travel-eligible record 10 minutes earlier, far away. -/
def loginTB : Login :=
  { loginBase with
      result := LoginResult.success,
      location := some ((26 : Rat), 119),
      time := -600,
      ip := some (ipv4 9 9 9 9) }

/-- Two travel-eligible records 10 minutes apart. -/
def userTravel : User :=
  { name := "t", logins := [loginTA, loginTB], checked_login_count := 2,
    reasons := [], score := 0, location := Option.none,
    creation_date := Option.none, investigated := false }

/-- A user whose two checked records carry two distinct non-VPN states
of one country. -/
def userTwoStates : User :=
  { name := "p",
    logins := [{ loginBase with
                   state := some "South Carolina",
                   country := some "US",
                   ip := some (ipv4 8 8 8 8) },
               { loginBase with
                   state := some "Georgia",
                   country := some "US",
                   time := -600,
                   ip := some (ipv4 9 9 9 9) }],
    checked_login_count := 2, reasons := [], score := 0,
    location := Option.none, creation_date := Option.none,
    investigated := false }

/-- A user whose two checked records carry two distinct non-VPN
countries but no state. -/
def userTwoCountriesNoState : User :=
  { name := "q",
    logins := [{ loginBase with
                   country := some "US",
                   ip := some (ipv4 8 8 8 8) },
               { loginBase with
                   country := some "CA",
                   time := -600,
                   ip := some (ipv4 9 9 9 9) }],
    checked_login_count := 2, reasons := [], score := 0,
    location := Option.none, creation_date := Option.none,
    investigated := false }

/-- An empty persistent store. -/
def storageEmpty : Storage := { investigated_users := [] }

/-- A store holding a marker for `"alice"` written at epoch second 0. -/
def storageAlice : Storage := { investigated_users := [("alice", 0)] }

/-- Baseline VPN record. -/
def vpnBase : VpnLog :=
  { time := 0, vpn_ip := ipv4 10 0 0 1, source_ip := ipv4 5 5 5 5,
    dev_platform := "mac-intel", dev_mac := Option.none,
    user_agent := "AnyConnect", correlate_prev := false,
    city := Option.none, state := Option.none, country := Option.none,
    is_relay := false }

/-- Three VPN records: the first two share a device MAC but differ in
source IP, the third shares neither. -/
def vpnLogsW : List VpnLog :=
  [{ vpnBase with dev_mac := some "aa:bb:cc:dd:ee:ff" },
   { vpnBase with
       time := -10,
       source_ip := ipv4 6 6 6 6,
       dev_mac := some "aa:bb:cc:dd:ee:ff" },
   { vpnBase with time := -20, source_ip := ipv4 7 7 7 7 }]

/-- A login on the first VPN sentinel address. -/
def loginVpn : Login := { loginBase with ip := some (ipv4 130 127 255 220) }

/-- The non-transient face of a user: everything the reset does not
clear, with records compared up to their flag sets. -/
def UserFrame (v u : User) : Prop :=
  v.checked_login_count = u.checked_login_count
    ∧ v.logins.length = u.logins.length
    ∧ v.name = u.name
    ∧ v.location = u.location
    ∧ v.creation_date = u.creation_date
    ∧ v.investigated = u.investigated
    ∧ v.logins.map clearFlags = u.logins.map clearFlags

/-- The tab-containing account name: whitespace that is not a space. -/
def capsTab : RawCaps := { capsBase with user := some "a\tb" }

/-- A login with no IP at all. -/
def loginNoIp : Login := loginBase

/-! # Theorems -/

/-! ## C10 — the VPN-sentinel predicate -/

/-- C10: `is_vpn_ip` holds exactly when the record's IP is present and
equal to one of the three sentinel addresses 130.127.255.220,
130.127.255.222 or 0.0.0.0; a record with no IP is never VPN-sourced. -/
theorem c10_vpn_sentinels (l : Login) :
    (l.is_vpn_ip = true ↔ ∃ ip, l.ip = some ip ∧
      (ip = ipv4 130 127 255 220 ∨ ip = ipv4 130 127 255 222
        ∨ ip = ipv4 0 0 0 0))
    ∧ (l.ip = Option.none → l.is_vpn_ip = false) := by
  cases h : l.ip with
  | none => simp [Login.is_vpn_ip, h]
  | some ip =>
    constructor
    · simp [Login.is_vpn_ip, h, VPN_IPS]
    · intro hnone
      simp at hnone

/-- C10 witness: the first sentinel address is recognized and an
IP-less record is not. -/
theorem c10_vpn_sentinels_w :
    loginVpn.is_vpn_ip = true ∧ loginNoIp.is_vpn_ip = false :=
  ⟨(c10_vpn_sentinels loginVpn).1.mpr ⟨ipv4 130 127 255 220, rfl, Or.inl rfl⟩,
   (c10_vpn_sentinels loginNoIp).2 rfl⟩

/-! ## C5 — investigated markers -/

/-- Looking up in an appended table skips a prefix without the key. -/
theorem lookup_append_of_none (l l' : List (String × Int)) (k : String)
    (h : l.lookup k = Option.none) : (l ++ l').lookup k = l'.lookup k := by
  induction l with
  | nil => rfl
  | cons a t ih =>
    obtain ⟨a1, a2⟩ := a
    rw [List.cons_append]
    cases hk : (k == a1) with
    | true => simp [List.lookup, hk] at h
    | false =>
      simp only [List.lookup, hk] at h ⊢
      exact ih h

/-- Deleting every row with a key makes its lookup miss. -/
theorem lookup_filter_ne (l : List (String × Int)) (k : String) :
    (l.filter fun r => !(r.1 == k)).lookup k = Option.none := by
  induction l with
  | nil => rfl
  | cons a t ih =>
    obtain ⟨a1, a2⟩ := a
    by_cases hk : a1 = k
    · simpa [List.filter_cons, hk] using ih
    · have h1 : (a1 == k) = false := by simpa using hk
      have h2 : (k == a1) = false := by simpa using Ne.symm hk
      simpa [List.filter_cons, h1, List.lookup, h2] using ih

/-- C5 (amended): when no marker exists for the name,
`mark_investigated(name, true)` at time `now` stores a marker carrying
`now`, and `investigated` then reads `true` strictly before `now + 24h`
and `false` from `now + 24h` on; `mark_investigated(name, false)` always
deletes the marker, after which `investigated` reads `false`.  (When a
marker already exists, the plain `INSERT` violates the `UNIQUE(name)`
constraint and is dropped — see the counterexample.) -/
theorem c5_marker_lifecycle (s : Storage) (now : Int) (user : String)
    (hfresh : s.investigated_users.lookup user = Option.none) :
    ((s.mark_investigated now user true).investigated_users.lookup user
      = some now)
    ∧ (∀ r : Int, r - now < 86400 →
        (s.mark_investigated now user true).investigated r user = true)
    ∧ (∀ r : Int, 86400 ≤ r - now →
        (s.mark_investigated now user true).investigated r user = false)
    ∧ (∀ (s2 : Storage) (r : Int),
        (s2.mark_investigated now user false).investigated r user = false) := by
  have hstore : (s.mark_investigated now user true).investigated_users.lookup user = some now := by
    simp only [Storage.mark_investigated, hfresh, Option.isSome_none,
      Bool.false_eq_true, if_false, if_true]
    rw [lookup_append_of_none _ _ _ hfresh]
    simp [List.lookup]
  refine ⟨hstore, ?_, ?_, ?_⟩
  · intro r hr
    simp [Storage.investigated, hstore, hr]
  · intro r hr
    simp [Storage.investigated, hstore]
    omega
  · intro s2 r
    simp [Storage.mark_investigated, Storage.investigated, lookup_filter_ne]

/-- C5 witness: marking fresh `"bob"` at time 0 reads `true` at
`23h59m` and `false` at `24h01m`; un-marking reads `false`. -/
theorem c5_marker_lifecycle_w :
    storageEmpty.investigated_users.lookup "bob" = Option.none
    ∧ (storageEmpty.mark_investigated 0 "bob" true).investigated 86340 "bob" = true
    ∧ (storageEmpty.mark_investigated 0 "bob" true).investigated 86460 "bob" = false
    ∧ (storageAlice.mark_investigated 0 "alice" false).investigated 100 "alice" = false :=
  ⟨rfl,
   (c5_marker_lifecycle storageEmpty 0 "bob" rfl).2.1 86340 (by norm_num),
   (c5_marker_lifecycle storageEmpty 0 "bob" rfl).2.2.1 86460 (by norm_num),
   (c5_marker_lifecycle storageEmpty 0 "bob" rfl).2.2.2 storageAlice 100⟩

/-- C5 counterexample: `"alice"` is already marked (time 0).  Re-marking
at time 1000 does **not** store a marker carrying 1000 — the `INSERT`
hits the `UNIQUE(name)` constraint and is dropped — so a read at
1000 + 23h59m (= 87340), which the claim says must be `true`, is
`false`. -/
theorem c5_remark_does_not_refresh :
    (storageAlice.mark_investigated 1000 "alice" true) = storageAlice
    ∧ (storageAlice.mark_investigated 1000 "alice" true).investigated 87340 "alice" = false := by
  constructor
  · decide
  · decide

/-! ## C2 — parser rejection conditions -/

/-- C2 (amended): `Login::new` returns `None` exactly when the
account-name capture is absent, the captured name contains a space
character `' '` or equals `"System"`, the timestamp capture is absent,
or the captured timestamp fails the fixed-format parse.  No other field
(factor, integration, reason, result, device, IP) can cause rejection:
they fall back to their defaults. -/
theorem c2_reject_conditions (pt : String → Option Int)
    (pip : String → Option Nat) (db : IpDB) (c : RawCaps) :
    loginNew pt pip db c = Option.none ↔
      (c.user = Option.none
        ∨ (∃ u, c.user = some u ∧ (u.data.contains ' ' = true ∨ u = "System"))
        ∨ c.time = Option.none
        ∨ (∃ s, c.time = some s ∧ pt s = Option.none)) := by
  unfold loginNew
  cases hu : c.user with
  | none => simp
  | some u =>
    by_cases hb : (u.data.contains ' ' || u == "System") = true
    · simp only [hb, if_true]
      simp at hb
      simp
      tauto
    · simp only [hb, if_false]
      simp at hb
      cases ht : c.time with
      | none => simp [hb.1, hb.2]
      | some ts =>
        cases hp : pt ts with
        | none => simp [hb.1, hb.2, hp, ht]
        | some t =>
          simp [hb.1, hb.2, hp]

/-- C2 counterexample to the claim as stated: an account name
containing a tab — whitespace, but not a space — is **accepted** by the
parser (`Login::new` only tests `user.contains(' ')`), while the claim
requires rejection of any name containing whitespace. -/
theorem c2_tab_name_accepted :
    (loginNew parseTimeOk parseIpNone ipdbEmpty capsTab).isSome = true
    ∧ "a\tb".data.any Char.isWhitespace = true := by
  constructor
  · decide
  · decide

/-- C2 witness: the reserved name `"System"` is rejected of itself, and
the all-defaults capture (no factor, integration, reason, result,
device, IP) is accepted. -/
theorem c2_reject_conditions_w :
    loginNew parseTimeOk parseIpNone ipdbEmpty
      { capsBase with user := some "System" } = Option.none
    ∧ (loginNew parseTimeOk parseIpNone ipdbEmpty capsBase).isSome = true :=
  ⟨(c2_reject_conditions parseTimeOk parseIpNone ipdbEmpty
      { capsBase with user := some "System" }).mpr
    (Or.inr (Or.inl ⟨"System", rfl, Or.inr rfl⟩)),
   by decide⟩

/-! ## C1 — ranking of the returned list -/

/-- C1 (code-bug evidence): `run_duplex`'s final `users.sort()` uses
`Ord::cmp`, which compares **score only** (descending); the
fraud-primary ordering lives in `PartialOrd`, which `sort` never
consults.  With one kept account of fraud 0 / score 30 and one of
fraud 1 / score 20, the returned order is the score order, violating
the claimed fraud-descending primary key: the fraud-free account comes
first.  (`userPartialCmp` documents what `PartialOrd` — and the spec —
prescribe: it would order the fraud account first.) -/
theorem c1_rank_violates_claim_order :
    rankUsers [userHiScore, userFraudOne] = [userHiScore, userFraudOne]
    ∧ userHiScore.fraud = 0 ∧ userFraudOne.fraud = 1
    ∧ ¬ specRanked (rankUsers [userHiScore, userFraudOne])
    ∧ userPartialCmp userFraudOne userHiScore = Ordering.lt := by
  refine ⟨by decide, by decide, by decide, by decide, by decide⟩

/-! ## C6 — the failure count -/

/-- Pointwise-equal predicates give equal `any`. -/
theorem list_any_congr {α : Type} {p q : α → Bool} :
    ∀ {l : List α}, (∀ x ∈ l, p x = q x) → l.any p = l.any q := by
  intro l
  induction l with
  | nil => intro _; rfl
  | cons a t ih =>
    intro h
    simp only [List.any_cons]
    rw [h a (List.mem_cons_self a t), ih fun x hx => h x (List.mem_cons_of_mem a hx)]

/-- C6: when the checked prefix is sorted most-recent-first, the failure
count equals the spec's description — checked `Failure` records with no
more-recent checked `Success` within 30 minutes **after** the failure
with matching integration and IP.  (The code never tests that the
success is not older; the sortedness of the list supplies it.) -/
theorem c6_failures_eq_spec (u : User)
    (hsorted : ∀ i j li lj, j < i → i < u.checked_login_count →
      u.logins.get? i = some li → u.logins.get? j = some lj →
      li.time ≤ lj.time) :
    u.failures = specFailures u := by
  unfold User.failures specFailures
  congr 1
  apply List.filter_congr
  intro i hi
  have hi' : i < u.checked_login_count := List.mem_range.mp hi
  cases hli : u.logins.get? i with
  | none =>
    simp only [isRealFailure]
    rw [hli]
  | some li =>
    simp only [isRealFailure, hli]
    have hany : (List.range i).any (fun j =>
        match u.logins.get? j with
        | some lj =>
          lj.result == LoginResult.success
            && decide (lj.time - li.time ≤ (1800 : Int))
            && lj.integration == li.integration && lj.ip == li.ip
        | Option.none => false)
      = (List.range i).any (fun j =>
        match u.logins.get? j with
        | some lj =>
          lj.result == LoginResult.success
            && decide (li.time ≤ lj.time)
            && decide (lj.time - li.time ≤ (1800 : Int))
            && lj.integration == li.integration && lj.ip == li.ip
        | Option.none => false) := by
      apply list_any_congr
      intro j hj
      have hj' : j < i := List.mem_range.mp hj
      cases hlj : u.logins.get? j with
      | none => simp
      | some lj =>
        have hle : li.time ≤ lj.time := hsorted i j li lj hj' hi' hli hlj
        simp [hle]
    rw [hany]

/-- C6 witness: a 10-minute-later success with matching (absent)
integration and IP suppresses the failure. -/
theorem c6_failures_eq_spec_w :
    userSorted.failures = specFailures userSorted
    ∧ userSorted.failures = 0 := by
  constructor
  · apply c6_failures_eq_spec
    intro i j li lj hji hi hgi hgj
    have hi2 : i < 2 := hi
    interval_cases i
    · omega
    · have hj : j = 0 := by omega
      subst hj
      simp only [userSorted] at hgi hgj
      simp at hgi hgj
      rw [← hgi, ← hgj]
      norm_num
  · decide

/-! ## C3 — range-table lookups -/

/-- `rowCmp` returns `eq` exactly on the rows whose interval contains
the ip. -/
theorem rowCmp_eq_iff {α : Type} (ip : Nat) (r : RangeRow α) :
    rowCmp ip r = Ordering.eq ↔ (r.lower ≤ ip ∧ ip ≤ r.upper) := by
  unfold rowCmp
  split_ifs with h1 h2
  · simp; omega
  · simp; omega
  · simp; omega

/-- `rowCmp` returns `lt` exactly below the ip. -/
theorem rowCmp_lt_iff {α : Type} (ip : Nat) (r : RangeRow α) :
    rowCmp ip r = Ordering.lt ↔ (¬r.lower > ip ∧ r.upper < ip) := by
  unfold rowCmp
  split_ifs with h1 h2
  · simp [h1]
  · simp [h1, h2]
  · simp [h1, h2]

/-- `rowCmp` returns `gt` exactly above the ip. -/
theorem rowCmp_gt_iff {α : Type} (ip : Nat) (r : RangeRow α) :
    rowCmp ip r = Ordering.gt ↔ r.lower > ip := by
  unfold rowCmp
  split_ifs with h1 h2
  · simp [h1]
  · simp [h1, h2]
  · simp [h1, h2]

/-- Sorted-and-disjoint tables have separated intervals. -/
theorem wft_sep {α : Type} {tbl : List (RangeRow α)} (h : wellFormedTable tbl) :
    ∀ i j ri rj, i < j → tbl.get? i = some ri → tbl.get? j = some rj →
      RangeRow.upper ri < RangeRow.lower rj := by
  obtain ⟨hwf, hsort, hdisj⟩ := h
  intro i j ri rj hij hgi hgj
  obtain ⟨hilen, hgeti⟩ := List.get?_eq_some.mp hgi
  obtain ⟨hjlen, hgetj⟩ := List.get?_eq_some.mp hgj
  have hlow : RangeRow.lower ri ≤ RangeRow.lower rj := by
    have hp := List.pairwise_iff_get.mp hsort ⟨i, hilen⟩ ⟨j, hjlen⟩ hij
    rw [hgeti, hgetj] at hp
    exact hp
  have hd := List.pairwise_iff_get.mp hdisj ⟨i, hilen⟩ ⟨j, hjlen⟩ hij
  rw [hgeti, hgetj] at hd
  have hwfi := hwf ri (List.get?_mem hgi)
  have hwfj := hwf rj (List.get?_mem hgj)
  omega

/-- Rows before a below-the-ip row are below the ip. -/
theorem rowCmp_mono_lt {α : Type} {tbl : List (RangeRow α)}
    (h : wellFormedTable tbl) (ip : Nat) :
    ∀ i j x y, i < j → tbl.get? i = some x → tbl.get? j = some y →
      rowCmp ip y = Ordering.lt → rowCmp ip x = Ordering.lt := by
  intro i j x y hij hgi hgj hy
  rw [rowCmp_lt_iff] at hy ⊢
  have hsep := wft_sep h i j x y hij hgi hgj
  have hwfx := h.1 x (List.get?_mem hgi)
  have hwfy := h.1 y (List.get?_mem hgj)
  omega

/-- Rows after an above-the-ip row are above the ip. -/
theorem rowCmp_mono_gt {α : Type} {tbl : List (RangeRow α)}
    (h : wellFormedTable tbl) (ip : Nat) :
    ∀ i j x y, i < j → tbl.get? i = some x → tbl.get? j = some y →
      rowCmp ip x = Ordering.gt → rowCmp ip y = Ordering.gt := by
  intro i j x y hij hgi hgj hx
  rw [rowCmp_gt_iff] at hx ⊢
  have hsep := wft_sep h i j x y hij hgi hgj
  have hwfx := h.1 x (List.get?_mem hgi)
  omega

/-- Whatever index the search loop returns, its element compares
`Equal`. -/
theorem bsGo_sound {α : Type} (f : α → Ordering) (xs : List α) :
    ∀ fuel left right m, bsGo f xs fuel left right = some m →
      ∃ x, xs.get? m = some x ∧ f x = Ordering.eq := by
  intro fuel
  induction fuel with
  | zero =>
    intro l r m h
    simp [bsGo] at h
  | succ n ih =>
    intro l r m h
    simp only [bsGo] at h
    by_cases hlr : l < r
    · rw [if_pos hlr] at h
      split at h
      next => simp at h
      next x hx =>
        split at h
        next hfx => exact ih _ _ _ h
        next hfx => exact ih _ _ _ h
        next hfx =>
          simp only [Option.some.injEq] at h
          subst h
          exact ⟨x, hx, hfx⟩
    · rw [if_neg hlr] at h
      simp at h

/-- When a comparator-`Equal` element exists and the comparator is
monotone along the list, the search loop finds one. -/
theorem bsGo_complete {α : Type} (f : α → Ordering) (xs : List α)
    (Hlt : ∀ i j x y, i < j → xs.get? i = some x → xs.get? j = some y →
      f y = Ordering.lt → f x = Ordering.lt)
    (Hgt : ∀ i j x y, i < j → xs.get? i = some x → xs.get? j = some y →
      f x = Ordering.gt → f y = Ordering.gt) :
    ∀ fuel left right, right - left ≤ fuel → right ≤ xs.length →
      (∀ i x, xs.get? i = some x → f x = Ordering.eq → left ≤ i ∧ i < right) →
      (∃ i x, xs.get? i = some x ∧ f x = Ordering.eq) →
      (bsGo f xs fuel left right).isSome = true := by
  intro fuel
  induction fuel with
  | zero =>
    intro l r hf hr hwin hex
    obtain ⟨i, x, hx, hfx⟩ := hex
    obtain ⟨h1, h2⟩ := hwin i x hx hfx
    omega
  | succ n ih =>
    intro l r hf hr hwin hex
    obtain ⟨i, x, hx, hfx⟩ := hex
    obtain ⟨hli, hir⟩ := hwin i x hx hfx
    have hlr : l < r := by omega
    simp only [bsGo, if_pos hlr]
    have hhalf : (r - l) / 2 < r - l := Nat.div_lt_self (by omega) (by norm_num)
    have hmidr : l + (r - l) / 2 < r := by omega
    have hmidlen : l + (r - l) / 2 < xs.length := by omega
    split
    next hxm =>
      exfalso
      have := List.get?_eq_none.mp hxm
      omega
    next xm hxm =>
      split
      next hfm =>
        apply ih (l + (r - l) / 2 + 1) r (by omega) hr
        · intro i' x' hx' hfx'
          obtain ⟨h1, h2⟩ := hwin i' x' hx' hfx'
          refine ⟨?_, h2⟩
          by_contra hcon
          push_neg at hcon
          rcases Nat.lt_or_ge i' (l + (r - l) / 2) with hlt | hge
          · have := Hlt i' (l + (r - l) / 2) x' xm hlt hx' hxm hfm
            rw [this] at hfx'
            cases hfx'
          · have heq : i' = l + (r - l) / 2 := by omega
            subst heq
            rw [hx'] at hxm
            injection hxm with he
            rw [he] at hfx'
            rw [hfx'] at hfm
            cases hfm
        · exact ⟨i, x, hx, hfx⟩
      next hfm =>
        apply ih l (l + (r - l) / 2) (by omega) (by omega)
        · intro i' x' hx' hfx'
          obtain ⟨h1, h2⟩ := hwin i' x' hx' hfx'
          refine ⟨h1, ?_⟩
          by_contra hcon
          push_neg at hcon
          rcases Nat.lt_or_ge (l + (r - l) / 2) i' with hlt | hge
          · have := Hgt (l + (r - l) / 2) i' xm x' hlt hxm hx' hfm
            rw [this] at hfx'
            cases hfx'
          · have heq : i' = l + (r - l) / 2 := by omega
            subst heq
            rw [hx'] at hxm
            injection hxm with he
            rw [he] at hfx'
            rw [hfx'] at hfm
            cases hfm
        · exact ⟨i, x, hx, hfx⟩
      next hfm => simp

/-- At most one row of a well-formed table contains any given ip. -/
theorem wft_unique {α : Type} {tbl : List (RangeRow α)}
    (h : wellFormedTable tbl) (ip : Nat) :
    ∀ i j ri rj, tbl.get? i = some ri → tbl.get? j = some rj →
      RangeRow.lower ri ≤ ip → ip ≤ RangeRow.upper ri →
      RangeRow.lower rj ≤ ip → ip ≤ RangeRow.upper rj → i = j := by
  intro i j ri rj hgi hgj h1 h2 h3 h4
  rcases Nat.lt_trichotomy i j with hij | hij | hij
  · have := wft_sep h i j ri rj hij hgi hgj
    omega
  · exact hij
  · have := wft_sep h j i rj ri hij hgj hgi
    omega

/-- A containing row is found by the binary search. -/
theorem rangeFind_hit {α : Type} (tbl : List (RangeRow α)) (ip : Nat)
    (h : wellFormedTable tbl) (i : Nat) (r : RangeRow α)
    (hgi : tbl.get? i = some r) (h1 : RangeRow.lower r ≤ ip)
    (h2 : ip ≤ RangeRow.upper r) :
    rangeFind tbl ip = some r := by
  have hex : ∃ k x, tbl.get? k = some x ∧ rowCmp ip x = Ordering.eq :=
    ⟨i, r, hgi, (rowCmp_eq_iff ip r).mpr ⟨h1, h2⟩⟩
  have hwin : ∀ k x, tbl.get? k = some x → rowCmp ip x = Ordering.eq →
      0 ≤ k ∧ k < tbl.length := by
    intro k x hx _
    exact ⟨Nat.zero_le _, (List.get?_eq_some.mp hx).1⟩
  have hcom := bsGo_complete (rowCmp ip) tbl (rowCmp_mono_lt h ip)
    (rowCmp_mono_gt h ip) (tbl.length + 1) 0 tbl.length (by omega)
    (le_refl _) hwin hex
  obtain ⟨idx, hk⟩ := Option.isSome_iff_exists.mp hcom
  obtain ⟨x, hgx, hfx⟩ := bsGo_sound (rowCmp ip) tbl _ _ _ _ hk
  obtain ⟨hx1, hx2⟩ := (rowCmp_eq_iff ip x).mp hfx
  have hidx : idx = i := wft_unique h ip idx i x r hgx hgi hx1 hx2 h1 h2
  subst hidx
  unfold rangeFind binarySearchBy
  rw [hk]
  exact hgi

/-- An ip outside every row is missed by the binary search. -/
theorem rangeFind_miss {α : Type} (tbl : List (RangeRow α)) (ip : Nat)
    (hmiss : ∀ r ∈ tbl, ¬(RangeRow.lower r ≤ ip ∧ ip ≤ RangeRow.upper r)) :
    rangeFind tbl ip = Option.none := by
  unfold rangeFind
  cases hk : binarySearchBy (rowCmp ip) tbl with
  | none => rfl
  | some k =>
    exfalso
    obtain ⟨x, hgx, hfx⟩ := bsGo_sound (rowCmp ip) tbl _ _ _ _ hk
    exact hmiss x (List.get?_mem hgx) ((rowCmp_eq_iff ip x).mp hfx)

/-- C3: over sorted, pairwise non-overlapping range tables, each lookup
returns exactly the (unique) containing row — `get_iploc` the row,
`is_proxy` `true`, `get_asn` the row's ASN payload — and misses (`none`
/ `false`) when the ip lies strictly outside every row. -/
theorem c3_range_lookup_spec (db : IpDB) (ip : Nat)
    (hloc : wellFormedTable db.iploc_db)
    (hpx : wellFormedTable db.proxy_db)
    (hasn : wellFormedTable db.asn_db) :
    (∀ i r, db.iploc_db.get? i = some r → RangeRow.lower r ≤ ip →
      ip ≤ RangeRow.upper r → db.get_iploc ip = some r)
    ∧ ((∀ r ∈ db.iploc_db, ¬(RangeRow.lower r ≤ ip ∧ ip ≤ RangeRow.upper r)) →
        db.get_iploc ip = Option.none)
    ∧ (∀ i j ri rj, db.iploc_db.get? i = some ri →
        db.iploc_db.get? j = some rj →
        RangeRow.lower ri ≤ ip → ip ≤ RangeRow.upper ri →
        RangeRow.lower rj ≤ ip → ip ≤ RangeRow.upper rj → i = j)
    ∧ (∀ i r, db.proxy_db.get? i = some r → RangeRow.lower r ≤ ip →
        ip ≤ RangeRow.upper r → db.is_proxy ip = true)
    ∧ ((∀ r ∈ db.proxy_db, ¬(RangeRow.lower r ≤ ip ∧ ip ≤ RangeRow.upper r)) →
        db.is_proxy ip = false)
    ∧ (∀ i r, db.asn_db.get? i = some r → RangeRow.lower r ≤ ip →
        ip ≤ RangeRow.upper r → db.get_asn ip = RangeRow.payload r)
    ∧ ((∀ r ∈ db.asn_db, ¬(RangeRow.lower r ≤ ip ∧ ip ≤ RangeRow.upper r)) →
        db.get_asn ip = Option.none) := by
  refine ⟨?_, ?_, ?_, ?_, ?_, ?_, ?_⟩
  · intro i r hgi h1 h2
    unfold IpDB.get_iploc
    exact rangeFind_hit db.iploc_db ip hloc i r hgi h1 h2
  · intro hmiss
    unfold IpDB.get_iploc
    exact rangeFind_miss db.iploc_db ip hmiss
  · exact wft_unique hloc ip
  · intro i r hgi h1 h2
    unfold IpDB.is_proxy
    rw [rangeFind_hit db.proxy_db ip hpx i r hgi h1 h2]
    rfl
  · intro hmiss
    unfold IpDB.is_proxy
    rw [rangeFind_miss db.proxy_db ip hmiss]
    rfl
  · intro i r hgi h1 h2
    unfold IpDB.get_asn
    rw [rangeFind_hit db.asn_db ip hasn i r hgi h1 h2]
  · intro hmiss
    unfold IpDB.get_asn
    rw [rangeFind_miss db.asn_db ip hmiss]

/-- C3 witness: on the concrete well-formed database, ip 15 hits the
second location row, proxy-ip 8 hits, asn-ip 3 yields `"AS1"`, and ip 7
misses the location table. -/
theorem c3_range_lookup_spec_w :
    ipdbW.get_iploc 15 = some (10, 20, locDataB)
    ∧ ipdbW.is_proxy 8 = true
    ∧ ipdbW.get_asn 3 = some "AS1"
    ∧ ipdbW.get_iploc 7 = Option.none := by
  have h := c3_range_lookup_spec ipdbW 15 (by decide) (by decide) (by decide)
  have h8 := c3_range_lookup_spec ipdbW 8 (by decide) (by decide) (by decide)
  have h3 := c3_range_lookup_spec ipdbW 3 (by decide) (by decide) (by decide)
  have h7 := c3_range_lookup_spec ipdbW 7 (by decide) (by decide) (by decide)
  refine ⟨?_, ?_, ?_, ?_⟩
  · exact h.1 1 (10, 20, locDataB) rfl (by decide) (by decide)
  · exact h8.2.2.2.1 1 (7, 9, ()) rfl (by decide) (by decide)
  · exact h3.2.2.2.2.2.1 0 (0, 5, some "AS1") rfl (by decide) (by decide)
  · exact h7.2.1 (by decide)

/-! ## C9 — VPN adjacency correlation -/

/-- `mapi` preserves length. -/
theorem mapi_length {α : Type} (f : Nat → α → α) :
    ∀ (s : Nat) (l : List α), (mapi f s l).length = l.length := by
  intro s l
  induction l generalizing s with
  | nil => rfl
  | cons a t ih => simp [mapi, ih]

/-- Element `i` of `mapi f s l`. -/
theorem mapi_get? {α : Type} (f : Nat → α → α) :
    ∀ (s i : Nat) (l : List α),
      (mapi f s l).get? i = (l.get? i).map (f (s + i)) := by
  intro s i l
  induction l generalizing s i with
  | nil => simp [mapi]
  | cons a t ih =>
    cases i with
    | zero => simp [mapi]
    | succ n =>
      simp only [mapi, List.get?_cons_succ]
      rw [ih (s + 1) n]
      have he : s + 1 + n = s + (n + 1) := by omega
      rw [he]

/-- `corrStep` preserves length. -/
theorem corrStep_length (acc : List VpnLog) (i : Nat) :
    (corrStep acc i).length = acc.length := by
  unfold corrStep
  split
  · split
    · split
      · exact List.length_set acc _ _
      · rfl
    · rfl
  · rfl

/-- Invariant of the correlation loop after `k` iterations: positions
whose successor pair has been visited hold the target value, the rest
are untouched. -/
theorem corrStep_fold_invariant (logs : List VpnLog) :
    ∀ k, k ≤ logs.length →
      ((List.range k).foldl corrStep logs).length = logs.length
      ∧ ∀ j, ((List.range k).foldl corrStep logs).get? j =
          if j + 1 < k then (corrTarget logs).get? j else logs.get? j := by
  intro k
  induction k with
  | zero =>
    intro _
    refine ⟨rfl, ?_⟩
    intro j
    simp
  | succ k ih =>
    intro hk1
    have hk : k ≤ logs.length := by omega
    obtain ⟨ihl, ihg⟩ := ih hk
    rw [List.range_succ, List.foldl_append, List.foldl_cons, List.foldl_nil]
    set F := (List.range k).foldl corrStep logs with hF
    by_cases hk0 : 1 ≤ k
    · have hklen : k < logs.length := by omega
      have hk1len : k - 1 < logs.length := by omega
      cases ha : logs.get? (k - 1) with
      | none =>
        exfalso
        have := List.get?_eq_none.mp ha
        omega
      | some a =>
        cases hb : logs.get? k with
        | none =>
          exfalso
          have := List.get?_eq_none.mp hb
          omega
        | some b =>
          have hFa : F.get? (k - 1) = some a := by
            rw [ihg (k - 1), if_neg (by omega)]
            exact ha
          have hFb : F.get? k = some b := by
            rw [ihg k, if_neg (by omega)]
            exact hb
          have htgt : (corrTarget logs).get? (k - 1) =
              some (if a.correlates b then { a with correlate_prev := true }
                else a) := by
            unfold corrTarget
            rw [mapi_get?, ha]
            have he : k - 1 + 1 = k := by omega
            simp only [Nat.zero_add, he, hb]
            rfl
          have hstep : corrStep F k =
              if a.correlates b then
                F.set (k - 1) { a with correlate_prev := true }
              else F := by
            unfold corrStep
            rw [if_pos hk0, hFa, hFb]
          rw [hstep]
          by_cases hcor : a.correlates b = true
          · rw [if_pos hcor]
            refine ⟨by rw [List.length_set]; exact ihl, ?_⟩
            intro j
            by_cases hjk : j = k - 1
            · subst hjk
              rw [List.get?_set_eq_of_lt _ (by rw [ihl]; omega)]
              rw [if_pos (by omega), htgt, if_pos hcor]
            · rw [List.get?_set_ne _ _ (fun he => hjk he.symm)]
              rw [ihg j]
              by_cases hc2 : j + 1 < k
              · rw [if_pos hc2, if_pos (by omega)]
              · rw [if_neg hc2, if_neg (by omega)]
          · rw [if_neg hcor]
            refine ⟨ihl, ?_⟩
            intro j
            by_cases hjk : j = k - 1
            · subst hjk
              rw [hFa, if_pos (by omega), htgt, if_neg hcor]
            · rw [ihg j]
              by_cases hc2 : j + 1 < k
              · rw [if_pos hc2, if_pos (by omega)]
              · rw [if_neg hc2, if_neg (by omega)]
    · have hstep0 : corrStep F k = F := by
        unfold corrStep
        rw [if_neg hk0]
      rw [hstep0]
      refine ⟨ihl, ?_⟩
      intro j
      rw [ihg j]
      rw [if_neg (by omega), if_neg (by omega)]

/-- The correlation pass computes exactly the adjacent-pair marking. -/
theorem correlate_eq_target (logs : List VpnLog) :
    correlate_vpn_logs logs = corrTarget logs := by
  apply List.ext_get?
  intro j
  unfold correlate_vpn_logs
  rw [(corrStep_fold_invariant logs logs.length le_rfl).2 j]
  by_cases hj : j + 1 < logs.length
  · rw [if_pos hj]
  · rw [if_neg hj]
    have hnext : logs.get? (j + 1) = Option.none :=
      List.get?_eq_none.mpr (by omega)
    unfold corrTarget
    rw [mapi_get?]
    cases hlj : logs.get? j with
    | none => rfl
    | some a =>
      simp only [Nat.zero_add, Option.map_some', hnext]

/-- C9: `vpn_correlates(a, b)` holds iff the source IPs agree or both
device MACs are present and equal; and on a list whose records carry the
parser-initialized `correlate_prev = false`, the correlation pass sets
`records[i-1].correlate_prev` exactly for adjacent correlating pairs —
record `i` becomes `{record i with correlate_prev := correlates(i, i+1)}`
and the earliest (last) record is returned unchanged (hence unmarked). -/
theorem c9_vpn_correlation (logs : List VpnLog)
    (h0 : ∀ v ∈ logs, v.correlate_prev = false) :
    (∀ a b : VpnLog, a.correlates b = true ↔
      (a.source_ip = b.source_ip ∨ ∃ m, a.dev_mac = some m ∧ b.dev_mac = some m))
    ∧ (∀ i a b, logs.get? i = some a → logs.get? (i + 1) = some b →
        (correlate_vpn_logs logs).get? i =
          some { a with correlate_prev := a.correlates b })
    ∧ (∀ i a, logs.get? i = some a → logs.get? (i + 1) = Option.none →
        (correlate_vpn_logs logs).get? i = some a) := by
  refine ⟨?_, ?_, ?_⟩
  · intro a b
    unfold VpnLog.correlates
    cases hm : a.dev_mac with
    | none => simp [hm]
    | some m =>
      cases hmb : b.dev_mac with
      | none => simp [hm, hmb]
      | some mb =>
        simp [hm, hmb]
        tauto
  · intro i a b ha hb
    rw [correlate_eq_target]
    unfold corrTarget
    rw [mapi_get?, ha]
    simp only [Nat.zero_add, Option.map_some', hb]
    by_cases hcor : a.correlates b = true
    · rw [if_pos hcor, hcor]
    · rw [if_neg hcor]
      have hfalse : a.correlates b = false := by
        cases hc : a.correlates b
        · rfl
        · exact absurd hc hcor
      rw [hfalse]
      have hap : a.correlate_prev = false := h0 a (List.get?_mem ha)
      rw [← hap]
  · intro i a ha hnext
    rw [correlate_eq_target]
    unfold corrTarget
    rw [mapi_get?, ha]
    simp only [Nat.zero_add, Option.map_some', hnext]

/-- C9 witness: with a shared MAC but different source IPs the first
pair correlates; the second pair does not; the last record stays
unmarked. -/
theorem c9_vpn_correlation_w :
    (correlate_vpn_logs vpnLogsW).map (fun v => v.correlate_prev)
      = [true, false, false] := by
  have h := c9_vpn_correlation vpnLogsW (by decide)
  decide

/-! ## C7 — impossible-travel pair scoring -/

/-- C7: for an adjacent travel-eligible pair `(p, p+1)` of the scan
(records `a` at index `i`, `b` at index `j`): a haversine distance
below 250 km contributes `(0, no tag)` whatever the elapsed time; and
with distance at least 250 km, a nonzero whole-minute gap and implied
speed at least 1000 kph, the pair contributes exactly
`min(log2(speed), 15)` to the accumulator and both records are tagged
`Travel`. -/
theorem c7_travel_pair (G : GeoOracle) (u : User) (p i j : Nat)
    (a b : Login) (pa pb : Rat × Rat)
    (hp : u.eligIdxs.get? p = some i)
    (hp1 : u.eligIdxs.get? (p + 1) = some j)
    (ha : u.logins.get? i = some a)
    (hb : u.logins.get? j = some b)
    (hla : a.location = some pa)
    (hlb : b.location = some pb) :
    (G.hav pa pb / 1000 < 250 →
      pairStep G a b = (0, false)
      ∧ (u.pairContribs G).get? p = some (0, false))
    ∧ (250 ≤ G.hav pa pb / 1000 →
      (b.time - a.time).natAbs / 60 ≠ 0 →
      1000 ≤ (G.hav pa pb / 1000) * 60 / (((b.time - a.time).natAbs / 60 : Nat) : Rat) →
      pairStep G a b =
        (min (G.log2q ((G.hav pa pb / 1000) * 60
           / (((b.time - a.time).natAbs / 60 : Nat) : Rat))) 15, true)
      ∧ (u.pairContribs G).get? p =
          some (min (G.log2q ((G.hav pa pb / 1000) * 60
            / (((b.time - a.time).natAbs / 60 : Nat) : Rat))) 15, true)
      ∧ (∃ la, (u.impossible_travel G).2.logins.get? i = some la
          ∧ FlagReason.travel ∈ la.flag_reasons)
      ∧ (∃ lb, (u.impossible_travel G).2.logins.get? j = some lb
          ∧ FlagReason.travel ∈ lb.flag_reasons)) := by
  have hplen : p + 1 < u.eligIdxs.length := (List.get?_eq_some.mp hp1).1
  have hcontrib : ∀ r : Rat × Bool, pairStep G a b = r →
      (u.pairContribs G).get? p = some r := by
    intro r hr
    unfold User.pairContribs
    rw [List.get?_map, List.get?_range (by omega)]
    simp only [Option.map_some', hp, hp1, ha, hb]
    rw [hr]
  constructor
  · intro hd
    have hps : pairStep G a b = (0, false) := by
      unfold pairStep
      simp only [hla, hlb]
      rw [if_pos hd]
    exact ⟨hps, hcontrib _ hps⟩
  · intro hd hm hk
    have hps : pairStep G a b =
        (min (G.log2q ((G.hav pa pb / 1000) * 60
          / (((b.time - a.time).natAbs / 60 : Nat) : Rat))) 15, true) := by
      unfold pairStep
      simp only [hla, hlb]
      rw [if_neg (not_lt.mpr hd), if_neg hm, if_pos hk]
    refine ⟨hps, hcontrib _ hps, ?_, ?_⟩
    · have htag : (match (u.pairContribs G).get? p with
          | some r => r.2
          | Option.none => false) = true := by
        rw [hcontrib _ hps]
      have hcnt : 0 < u.travelCount G i := by
        unfold User.travelCount
        apply List.length_pos.mpr
        apply List.ne_nil_of_mem (a := p)
        apply List.mem_filter.mpr
        refine ⟨List.mem_range.mpr (by omega), ?_⟩
        rw [Bool.and_eq_true]
        refine ⟨htag, ?_⟩
        rw [Bool.or_eq_true]
        exact Or.inl (by rw [hp]; exact beq_self_eq_true _)
      refine ⟨addFlags (u.travelCount G i) FlagReason.travel a, ?_, ?_⟩
      · unfold User.impossible_travel
        rw [if_neg (by omega)]
        simp only
        rw [mapi_get?, ha]
        simp only [Nat.zero_add, Option.map_some']
      · unfold addFlags
        simp only
        apply List.mem_append.mpr
        exact Or.inr (List.mem_replicate.mpr ⟨by omega, rfl⟩)
    · have htag : (match (u.pairContribs G).get? p with
          | some r => r.2
          | Option.none => false) = true := by
        rw [hcontrib _ hps]
      have hcnt : 0 < u.travelCount G j := by
        unfold User.travelCount
        apply List.length_pos.mpr
        apply List.ne_nil_of_mem (a := p)
        apply List.mem_filter.mpr
        refine ⟨List.mem_range.mpr (by omega), ?_⟩
        rw [Bool.and_eq_true]
        refine ⟨htag, ?_⟩
        rw [Bool.or_eq_true]
        exact Or.inr (by rw [hp1]; exact beq_self_eq_true _)
      refine ⟨addFlags (u.travelCount G j) FlagReason.travel b, ?_, ?_⟩
      · unfold User.impossible_travel
        rw [if_neg (by omega)]
        simp only
        rw [mapi_get?, hb]
        simp only [Nat.zero_add, Option.map_some']
      · unfold addFlags
        simp only
        apply List.mem_append.mpr
        exact Or.inr (List.mem_replicate.mpr ⟨by omega, rfl⟩)

/-- C7 witness: 9000 km in 10 minutes — the pair contributes
`min(log2(54000 kph), 15)` (here 10, with the oracle's `log2`) and both
records get tagged. -/
theorem c7_travel_pair_w :
    (userTravel.pairContribs oracleW).get? 0 = some (10, true)
    ∧ (∃ la, (userTravel.impossible_travel oracleW).2.logins.get? 0 = some la
        ∧ FlagReason.travel ∈ la.flag_reasons)
    ∧ (∃ lb, (userTravel.impossible_travel oracleW).2.logins.get? 1 = some lb
        ∧ FlagReason.travel ∈ lb.flag_reasons) := by
  have h := c7_travel_pair oracleW userTravel 0 0 1 loginTA loginTB
    (34, -82) (26, 119) (by decide) (by decide) rfl rfl rfl rfl
  obtain ⟨hps, hcon, hta, htb⟩ := h.2 (by norm_num [oracleW]) (by decide)
    (by norm_num [oracleW, loginTA, loginTB, loginBase])
  refine ⟨?_, hta, htb⟩
  rw [hcon]
  norm_num [oracleW, loginTA, loginTB, loginBase]

/-! ## C8 — the impossible-travel precheck -/

/-- Consecutive dedup of a nonempty list is nonempty. -/
theorem rdc_pos {α : Type} [DecidableEq α] :
    ∀ (c : α) (t : List α), 1 ≤ (rustDedupConsec (c :: t)).length
  | _, [] => by simp [rustDedupConsec]
  | c, d :: t => by
    by_cases hcd : c = d
    · simp only [rustDedupConsec, if_pos hcd]
      exact rdc_pos d t
    · simp only [rustDedupConsec, if_neg hcd]
      simp

/-- The consecutive dedup has fewer than two entries exactly when the
list is constant. -/
theorem rdc_length_lt_two_iff {α : Type} [DecidableEq α] :
    ∀ l : List α, ((rustDedupConsec l).length < 2 ↔ ∀ a ∈ l, ∀ b ∈ l, a = b)
  | [] => by simp [rustDedupConsec]
  | [a] => by simp [rustDedupConsec]
  | a :: b :: rest => by
    by_cases hab : a = b
    · subst hab
      simp only [rustDedupConsec, eq_self_iff_true, if_true]
      rw [rdc_length_lt_two_iff (a :: rest)]
      constructor
      · intro h x hx y hy
        simp only [List.mem_cons] at hx hy
        apply h
        · simp only [List.mem_cons]
          tauto
        · simp only [List.mem_cons]
          tauto
      · intro h x hx y hy
        apply h
        · simp only [List.mem_cons] at hx ⊢
          tauto
        · simp only [List.mem_cons] at hy ⊢
          tauto
    · simp only [rustDedupConsec, if_neg hab]
      have hpos := rdc_pos b rest
      constructor
      · intro h
        exfalso
        simp only [List.length_cons] at h
        omega
      · intro h
        exfalso
        exact hab (h a (by simp) b (by simp))

/-- Consecutive dedup crosses the two-element threshold exactly when
the number of distinct values does. -/
theorem rdc_lt_two_iff_card {α : Type} [DecidableEq α] (l : List α) :
    ((rustDedupConsec l).length < 2) ↔ l.toFinset.card ≤ 1 := by
  rw [rdc_length_lt_two_iff l, Finset.card_le_one]
  simp [List.mem_toFinset]

/-- Elements of `mapi` come from elements of the input. -/
theorem mem_mapi {α : Type} (f : Nat → α → α) :
    ∀ (s : Nat) (l : List α) (x : α), x ∈ mapi f s l →
      ∃ i y, y ∈ l ∧ x = f i y := by
  intro s l
  induction l generalizing s with
  | nil => intro x hx; cases hx
  | cons a t ih =>
    intro x hx
    simp only [mapi, List.mem_cons] at hx
    rcases hx with hx | hx
    · exact ⟨s, a, List.mem_cons_self a t, hx⟩
    · obtain ⟨i, y, hy, hxy⟩ := ih (s + 1) x hx
      exact ⟨i, y, List.mem_cons_of_mem a hy, hxy⟩

/-- A flag-only per-element update disappears under `clearFlags`. -/
theorem mapi_map_clearFlags {f : Nat → Login → Login}
    (hf : ∀ i x, clearFlags (f i x) = clearFlags x) :
    ∀ (s : Nat) (l : List Login),
      (mapi f s l).map clearFlags = l.map clearFlags := by
  intro s l
  induction l generalizing s with
  | nil => rfl
  | cons a t ih => simp [mapi, hf, ih]

/-- `statePairs` ignores the per-record flag sets: two users with the
same checked count and flag-cleared records have the same pairs. -/
theorem statePairs_congr (u v : User)
    (hc : v.checked_login_count = u.checked_login_count)
    (hl : v.logins.map clearFlags = u.logins.map clearFlags) :
    v.statePairs = u.statePairs := by
  unfold User.statePairs
  rw [hc]
  have key : ∀ w : List Login,
      (w.filterMap fun l =>
        if !l.is_vpn_ip then
          match l.state, l.country with
          | some s, some c => some (s, c)
          | _, _ => Option.none
        else Option.none)
      = ((w.map clearFlags).filterMap fun l =>
        if !l.is_vpn_ip then
          match l.state, l.country with
          | some s, some c => some (s, c)
          | _, _ => Option.none
        else Option.none) := by
    intro w
    rw [List.filterMap_map]
    rfl
  rw [key (v.logins.take u.checked_login_count),
    key (u.logins.take u.checked_login_count),
    List.map_take, List.map_take, hl]

/-- The travel precheck likewise ignores flag sets. -/
theorem precheck_congr (u v : User)
    (hc : v.checked_login_count = u.checked_login_count)
    (hl : v.logins.map clearFlags = u.logins.map clearFlags) :
    v.impossible_travel_precheck = u.impossible_travel_precheck := by
  unfold User.impossible_travel_precheck
  rw [statePairs_congr u v hc hl]

/-- `flag_fraud` only appends `Fraud` flags: records free of `Travel`
stay free of it. -/
theorem travel_notin_flag_fraud (u : User)
    (h : ∀ l ∈ u.logins, FlagReason.travel ∉ l.flag_reasons) :
    ∀ l ∈ (u.flag_fraud).2.logins, FlagReason.travel ∉ l.flag_reasons := by
  intro l hl
  obtain ⟨i, y, hy, hly⟩ := mem_mapi _ _ _ _ hl
  subst hly
  by_cases hc : (i < u.checked_login_count
      && y.result == LoginResult.fraud) = true
  · simp only [hc, if_pos, addFlags]
    intro hmem
    rcases List.mem_append.mp hmem with hmem | hmem
    · exact h y hy hmem
    · simp at hmem
  · simp only [hc]
    simp only [Bool.false_eq_true, if_false]
    exact h y hy

/-- `flag_dmp` only appends `Dmp` flags. -/
theorem travel_notin_flag_dmp (u : User)
    (h : ∀ l ∈ u.logins, FlagReason.travel ∉ l.flag_reasons) :
    ∀ l ∈ (u.flag_dmp).2.logins, FlagReason.travel ∉ l.flag_reasons := by
  intro l hl
  obtain ⟨i, y, hy, hly⟩ := mem_mapi _ _ _ _ hl
  subst hly
  by_cases hc : (i < u.checked_login_count
      && y.integration == Integration.dmp
      && y.result == LoginResult.failure) = true
  · simp only [hc, if_pos, addFlags]
    intro hmem
    rcases List.mem_append.mp hmem with hmem | hmem
    · exact h y hy hmem
    · simp at hmem
  · simp only [hc]
    simp only [Bool.false_eq_true, if_false]
    exact h y hy

/-- `flag_fraud` leaves the flag-cleared records unchanged. -/
theorem flag_fraud_clear (u : User) :
    (u.flag_fraud).2.logins.map clearFlags = u.logins.map clearFlags := by
  apply mapi_map_clearFlags
  intro i x
  split
  · rfl
  · rfl

/-- `flag_dmp` leaves the flag-cleared records unchanged. -/
theorem flag_dmp_clear (u : User) :
    (u.flag_dmp).2.logins.map clearFlags = u.logins.map clearFlags := by
  apply mapi_map_clearFlags
  intro i x
  split
  · rfl
  · rfl

/-- C8: the travel precheck holds exactly when, among the checked
non-VPN records that carry both a state and a country, more than one
distinct country or at least two distinct states appear (the code's
consecutive `Vec::dedup` crosses the 2-element threshold iff the
distinct count does); and when the precheck fails, pass 1 computes no
travel points and tags no record `Travel`. -/
theorem c8_precheck_gate (G : GeoOracle) (u : User) :
    (u.impossible_travel_precheck = true ↔
      1 < (u.statePairs.map Prod.snd).toFinset.card
        ∨ 2 ≤ (u.statePairs.map Prod.fst).toFinset.card)
    ∧ (u.impossible_travel_precheck = false →
        (∀ l ∈ u.logins, FlagReason.travel ∉ l.flag_reasons) →
        FlagReason.travel ∉ u.reasons →
        (∀ l ∈ (u.first_vibe_check G).2.logins,
            FlagReason.travel ∉ l.flag_reasons)
        ∧ FlagReason.travel ∉ (u.first_vibe_check G).2.reasons) := by
  constructor
  · unfold User.impossible_travel_precheck
    simp only
    by_cases hcn : (rustDedupConsec (u.statePairs.map Prod.snd)).length > 1
    · rw [if_pos hcn]
      have h2 : ¬((rustDedupConsec (u.statePairs.map Prod.snd)).length < 2) := by
        omega
      rw [rdc_lt_two_iff_card] at h2
      constructor
      · intro _
        left
        omega
      · intro _
        rfl
    · rw [if_neg hcn]
      have h2 : (rustDedupConsec (u.statePairs.map Prod.snd)).length < 2 := by
        omega
      rw [rdc_lt_two_iff_card] at h2
      by_cases hs : (rustDedupConsec (u.statePairs.map Prod.fst)).length < 2
      · rw [if_pos hs]
        rw [rdc_lt_two_iff_card] at hs
        constructor
        · intro h
          cases h
        · intro h
          exfalso
          rcases h with h | h
          · omega
          · omega
      · rw [if_neg hs]
        rw [rdc_lt_two_iff_card] at hs
        constructor
        · intro _
          right
          omega
        · intro _
          rfl
  · intro hpc hflags hreas
    unfold User.first_vibe_check
    by_cases htriv : (u.checked_login_count == 0 || u.logins.isEmpty) = true
    · rw [if_pos htriv]
      exact ⟨hflags, hreas⟩
    · rw [if_neg htriv]
      have hu1flags : ∀ l ∈ (if u.score ≠ 0 then resetTransient u else u).logins,
          FlagReason.travel ∉ l.flag_reasons := by
        split
        · intro l hl
          simp only [resetTransient] at hl
          obtain ⟨y, hy, hly⟩ := List.mem_map.mp hl
          rw [← hly]
          simp [clearFlags]
        · exact hflags
      have hu1reas : FlagReason.travel ∉
          (if u.score ≠ 0 then resetTransient u else u).reasons := by
        split
        · simp [resetTransient]
        · exact hreas
      have hu1c : (if u.score ≠ 0 then resetTransient u else u).checked_login_count
          = u.checked_login_count := by
        split <;> rfl
      have hu1map : (if u.score ≠ 0 then resetTransient u else u).logins.map clearFlags
          = u.logins.map clearFlags := by
        split
        · simp only [resetTransient, List.map_map]
          rfl
        · rfl
      set w := if u.score ≠ 0 then resetTransient u else u with hw
      have hpcw : w.impossible_travel_precheck = false := by
        rw [precheck_congr u w hu1c hu1map]
        exact hpc
      unfold firstVibeCheckMain
      by_cases hph : w.perfectHistory = true
      · rw [if_pos hph]
        exact ⟨hu1flags, hu1reas⟩
      · rw [if_neg hph]
        by_cases hin : w.in_state = true
        · rw [if_pos hin]
          exact ⟨hu1flags, hu1reas⟩
        · rw [if_neg hin]
          simp only
          set f := w.failures with hf
          set w1 := if 0 < f then pushReason w FlagReason.failure else w with hw1
          set fr := (w1.flag_fraud).1 with hfr
          set w2 := (w1.flag_fraud).2 with hw2
          set w3 := if 0 < fr then pushReason w2 FlagReason.fraud else w2 with hw3
          have hw1flags : ∀ l ∈ w1.logins, FlagReason.travel ∉ l.flag_reasons := by
            rw [hw1]
            split
            · exact hu1flags
            · exact hu1flags
          have hw1c : w1.checked_login_count = w.checked_login_count := by
            rw [hw1]; split <;> rfl
          have hw1map : w1.logins.map clearFlags = w.logins.map clearFlags := by
            rw [hw1]; split <;> rfl
          have hw1reas : FlagReason.travel ∉ w1.reasons := by
            rw [hw1]
            split
            · simp [pushReason]
              exact hu1reas
            · exact hu1reas
          have hw2flags : ∀ l ∈ w2.logins, FlagReason.travel ∉ l.flag_reasons := by
            rw [hw2]
            exact travel_notin_flag_fraud w1 hw1flags
          have hw3flags : ∀ l ∈ w3.logins, FlagReason.travel ∉ l.flag_reasons := by
            rw [hw3]
            split
            · exact hw2flags
            · exact hw2flags
          have hw3reas : FlagReason.travel ∉ w3.reasons := by
            rw [hw3]
            split
            · simp [pushReason, hw2]
              exact hw1reas
            · rw [hw2]
              exact hw1reas
          have hw3c : w3.checked_login_count = u.checked_login_count := by
            rw [hw3]
            have h2 : w2.checked_login_count = w.checked_login_count := by
              rw [hw2]
              exact hw1c
            split
            · rw [pushReason]
              rw [h2]
              exact hu1c
            · rw [h2]
              exact hu1c
          have hw3map : w3.logins.map clearFlags = u.logins.map clearFlags := by
            have h2 : w2.logins.map clearFlags = w.logins.map clearFlags := by
              rw [hw2, flag_fraud_clear, hw1map]
            rw [hw3]
            split
            · rw [pushReason]
              simp only
              rw [h2]
              exact hu1map
            · rw [h2]
              exact hu1map
          have hpc3 : w3.impossible_travel_precheck = false := by
            rw [precheck_congr u w3 hw3c hw3map]
            exact hpc
          rw [hpc3]
          simp only [Bool.false_eq_true, if_false, Bool.false_and,
            decide_eq_true_eq]
          set dm := (w3.flag_dmp).1 with hdm
          set w6 := (w3.flag_dmp).2 with hw6
          have hw6flags : ∀ l ∈ w6.logins, FlagReason.travel ∉ l.flag_reasons := by
            rw [hw6]
            exact travel_notin_flag_dmp w3 hw3flags
          have hw6reas : FlagReason.travel ∉ w6.reasons := by
            rw [hw6]
            exact hw3reas
          constructor
          · intro l hl
            split at hl
            · simp only [pushReason] at hl
              exact hw6flags l hl
            · exact hw6flags l hl
          · split
            · simp only [pushReason]
              intro hmem
              rcases List.mem_append.mp hmem with hmem | hmem
              · exact hw6reas hmem
              · simp at hmem
            · exact hw6reas

/-- C8 witness: two distinct non-VPN states trigger the precheck; an
account failing the precheck comes out of pass 1 with no `Travel` tag
or reason. -/
theorem c8_precheck_gate_w :
    userTwoStates.impossible_travel_precheck = true
    ∧ (∀ l ∈ (userClean.first_vibe_check oracle0).2.logins,
        FlagReason.travel ∉ l.flag_reasons)
    ∧ FlagReason.travel ∉ (userClean.first_vibe_check oracle0).2.reasons := by
  refine ⟨?_, ?_, ?_⟩
  · exact (c8_precheck_gate oracle0 userTwoStates).1.mpr (Or.inr (by decide))
  · exact ((c8_precheck_gate oracle0 userClean).2 (by decide) (by decide)
      (by decide)).1
  · exact ((c8_precheck_gate oracle0 userClean).2 (by decide) (by decide)
      (by decide)).2

/-- C8 counterexample to the claim as stated: an account whose two
checked non-VPN records carry two distinct countries but no state
satisfies the claim's condition (more than one distinct non-VPN country
among the checked records), yet `impossible_travel_precheck` is false —
the code counts only records carrying BOTH a state and a country — so
pass 1 computes no travel points and tags no record `Travel`. -/
theorem c8_stateless_countries_skip_travel :
    specPrecheckAllChecked userTwoCountriesNoState
    ∧ userTwoCountriesNoState.impossible_travel_precheck = false
    ∧ (∀ l ∈ (userTwoCountriesNoState.first_vibe_check oracle0).2.logins,
        FlagReason.travel ∉ l.flag_reasons)
    ∧ FlagReason.travel
        ∉ (userTwoCountriesNoState.first_vibe_check oracle0).2.reasons := by
  refine ⟨?_, ?_, ?_, ?_⟩
  · exact Or.inl (by decide)
  · decide
  · decide
  · decide

/-! ## C4 — idempotence of pass 1 -/

/-- Clearing the flags of a flag-free record is the identity. -/
theorem clearFlags_eq_self {l : Login} (h : l.flag_reasons = []) :
    clearFlags l = l := by
  cases l
  simp only [clearFlags] at h ⊢
  simp only [Login.mk.injEq, and_true, true_and]
  simp_all

/-- Clearing all flags of flag-free records is the identity. -/
theorem map_clearFlags_eq_self {L : List Login}
    (h : ∀ l ∈ L, l.flag_reasons = []) : L.map clearFlags = L := by
  induction L with
  | nil => rfl
  | cons a t ih =>
    simp only [List.map_cons]
    rw [clearFlags_eq_self (h a (List.mem_cons_self a t)),
      ih fun l hl => h l (List.mem_cons_of_mem a hl)]

/-- Resetting an already-clean user is the identity. -/
theorem resetTransient_eq_self {u : User} (h0 : u.score = 0)
    (h1 : u.reasons = []) (h2 : ∀ l ∈ u.logins, l.flag_reasons = []) :
    resetTransient u = u := by
  unfold resetTransient
  cases u
  simp only at h0 h1 h2 ⊢
  simp only [User.mk.injEq, and_true, true_and]
  refine ⟨map_clearFlags_eq_self h2, h1.symm, h0.symm⟩

/-- Two users that agree on everything but transient state have the
same reset. -/
theorem resetTransient_ext {u v : User} (hn : v.name = u.name)
    (hc : v.checked_login_count = u.checked_login_count)
    (hloc : v.location = u.location)
    (hcd : v.creation_date = u.creation_date)
    (hinv : v.investigated = u.investigated)
    (hl : v.logins.map clearFlags = u.logins.map clearFlags) :
    resetTransient v = resetTransient u := by
  unfold resetTransient
  cases u
  cases v
  simp only at hn hc hloc hcd hinv hl ⊢
  simp only [User.mk.injEq, and_true, true_and]
  exact ⟨hn, hl, hc, hloc, hcd, hinv⟩

/-- A pointwise-trivial indexed map is the identity. -/
theorem mapi_eq_self {α : Type} (f : Nat → α → α) :
    ∀ (s : Nat) (l : List α),
      (∀ i y, l.get? i = some y → f (s + i) y = y) → mapi f s l = l := by
  intro s l
  induction l generalizing s with
  | nil => intro _; rfl
  | cons a t ih =>
    intro h
    have h0 : f s a = a := by
      have := h 0 a rfl
      simpa using this
    simp only [mapi, h0, List.cons.injEq, true_and]
    apply ih
    intro i y hy
    have := h (i + 1) y (by simpa using hy)
    have he : s + (i + 1) = s + 1 + i := by omega
    rw [he] at this
    exact this

/-- Appending zero flags is the identity. -/
theorem addFlags_zero (fr : FlagReason) (l : Login) :
    addFlags 0 fr l = l := by
  unfold addFlags
  cases l
  simp

/-- `flag_fraud` on an account without fraud records changes nothing. -/
theorem flag_fraud_id {u : User} (h : u.fraud = 0) :
    (u.flag_fraud).2 = u := by
  unfold User.flag_fraud
  simp only
  have hid : mapi (fun i l =>
      if i < u.checked_login_count && l.result == LoginResult.fraud then
        addFlags 1 FlagReason.fraud l
      else l) 0 u.logins = u.logins := by
    apply mapi_eq_self
    intro i y hy
    simp only [Nat.zero_add]
    have hnot : ¬(i < u.checked_login_count
        ∧ y.result = LoginResult.fraud) := by
      rintro ⟨hi, hr⟩
      unfold User.fraud at h
      rw [List.length_eq_zero] at h
      have hmem : y ∈ u.logins.take u.checked_login_count := by
        apply List.get?_mem (n := i)
        rw [List.get?_take hi]
        exact hy
      have := List.filter_eq_nil.mp h y hmem
      simp [hr] at this
    have hcond : (i < u.checked_login_count
        && y.result == LoginResult.fraud) = false := by
      cases hb : (decide (i < u.checked_login_count)
          && y.result == LoginResult.fraud) with
      | false => rfl
      | true =>
        exfalso
        simp only [Bool.and_eq_true, decide_eq_true_eq, beq_iff_eq] at hb
        exact hnot hb
    rw [hcond]
    simp
  rw [hid]

/-- `flag_dmp` on an account without DMP failures changes nothing. -/
theorem flag_dmp_id {u : User} (h : u.dmpCount = 0) :
    (u.flag_dmp).2 = u := by
  unfold User.flag_dmp
  simp only
  have hid : mapi (fun i l =>
      if i < u.checked_login_count && l.integration == Integration.dmp
          && l.result == LoginResult.failure then
        addFlags 1 FlagReason.dmp l
      else l) 0 u.logins = u.logins := by
    apply mapi_eq_self
    intro i y hy
    simp only [Nat.zero_add]
    have hnot : ¬(i < u.checked_login_count
        ∧ y.integration = Integration.dmp
        ∧ y.result = LoginResult.failure) := by
      rintro ⟨hi, hint, hr⟩
      unfold User.dmpCount at h
      rw [List.length_eq_zero] at h
      have hmem : y ∈ u.logins.take u.checked_login_count := by
        apply List.get?_mem (n := i)
        rw [List.get?_take hi]
        exact hy
      have := List.filter_eq_nil.mp h y hmem
      simp [hint, hr] at this
    have hcond : (i < u.checked_login_count
        && y.integration == Integration.dmp
        && y.result == LoginResult.failure) = false := by
      cases hb : (decide (i < u.checked_login_count)
          && y.integration == Integration.dmp
          && y.result == LoginResult.failure) with
      | false => rfl
      | true =>
        exfalso
        simp only [Bool.and_eq_true, decide_eq_true_eq, beq_iff_eq] at hb
        exact hnot ⟨hb.1.1, hb.1.2, hb.2⟩
    rw [hcond]
    simp
  rw [hid]

/-- The impossible-travel pass does not touch the score or checked
count, keeps the list length, and its flag changes vanish under
`clearFlags`. -/
theorem impossible_travel_frame (G : GeoOracle) (u : User) :
    (u.impossible_travel G).2.score = u.score
    ∧ (u.impossible_travel G).2.checked_login_count = u.checked_login_count
    ∧ (u.impossible_travel G).2.reasons = u.reasons
    ∧ (u.impossible_travel G).2.logins.length = u.logins.length
    ∧ (u.impossible_travel G).2.logins.map clearFlags
        = u.logins.map clearFlags
    ∧ (u.impossible_travel G).2.name = u.name
    ∧ (u.impossible_travel G).2.location = u.location
    ∧ (u.impossible_travel G).2.creation_date = u.creation_date
    ∧ (u.impossible_travel G).2.investigated = u.investigated := by
  unfold User.impossible_travel
  simp only
  split
  · exact ⟨rfl, rfl, rfl, rfl, rfl, rfl, rfl, rfl, rfl⟩
  · refine ⟨rfl, rfl, rfl, mapi_length _ _ _, ?_, rfl, rfl, rfl, rfl⟩
    apply mapi_map_clearFlags
    intro i x
    rfl

/-- Under the log2 hypothesis, each pair result is componentwise
benign: untagged pairs contribute zero, tagged pairs at least one, and
contributions are never negative. -/
theorem pairStep_cases (G : GeoOracle)
    (HL : ∀ q : Rat, 1000 ≤ q → 1 ≤ G.log2q q) (a b : Login) :
    (0 ≤ (pairStep G a b).1)
    ∧ ((pairStep G a b).2 = false → (pairStep G a b).1 = 0)
    ∧ ((pairStep G a b).2 = true → 1 ≤ (pairStep G a b).1) := by
  unfold pairStep
  split
  · simp only
    split
    · refine ⟨le_refl 0, ?_, ?_⟩
      · intro _
        rfl
      · intro h
        simp at h
    · split
      · refine ⟨by norm_num, ?_, ?_⟩
        · intro h
          simp at h
        · intro _
          norm_num
      · split
        next hk =>
          have h1 : 1 ≤ min (G.log2q _) 15 :=
            le_min (HL _ hk) (by norm_num)
          refine ⟨le_trans (by norm_num) h1, ?_, ?_⟩
          · intro h
            simp at h
          · intro _
            exact h1
        next hk =>
          refine ⟨le_refl 0, ?_, ?_⟩
          · intro _
            rfl
          · intro h
            simp at h
  · refine ⟨le_refl 0, ?_, ?_⟩
    · intro _
      rfl
    · intro h
      simp at h

/-- Every entry of the pair-contribution list is benign. -/
theorem pairContribs_shape (G : GeoOracle)
    (HL : ∀ q : Rat, 1000 ≤ q → 1 ≤ G.log2q q) (u : User) :
    ∀ r ∈ u.pairContribs G, 0 ≤ r.1 ∧ (r.2 = false → r.1 = 0)
      ∧ (r.2 = true → 1 ≤ r.1) := by
  intro r hr
  unfold User.pairContribs at hr
  simp only at hr
  obtain ⟨p, hpmem, hpr⟩ := List.mem_map.mp hr
  rw [← hpr]
  split
  · split
    · exact pairStep_cases G HL _ _
    · refine ⟨le_refl 0, fun _ => rfl, ?_⟩
      intro h
      simp at h
  · refine ⟨le_refl 0, fun _ => rfl, ?_⟩
    intro h
    simp at h

/-- When the accumulated (truncated) travel score is zero, no pair is
tagged. -/
theorem travel_zero_no_tags (G : GeoOracle)
    (HL : ∀ q : Rat, 1000 ≤ q → 1 ≤ G.log2q q) (u : User)
    (h : (Rat.floor ((List.map Prod.fst (u.pairContribs G)).sum)).toNat = 0) :
    ∀ p r, (u.pairContribs G).get? p = some r → r.2 = false := by
  intro p r hpr
  by_contra hcon
  have hr2 : r.2 = true := by
    cases hr : r.2
    · exact absurd hr hcon
    · rfl
  have hmem : r ∈ u.pairContribs G := List.get?_mem hpr
  have hshape := pairContribs_shape G HL u r hmem
  have hm1 : r.1 ∈ List.map Prod.fst (u.pairContribs G) :=
    List.mem_map_of_mem _ hmem
  have hpos : ∀ x ∈ List.map Prod.fst (u.pairContribs G), (0:Rat) ≤ x := by
    intro x hx
    obtain ⟨y, hy, hxy⟩ := List.mem_map.mp hx
    rw [← hxy]
    exact (pairContribs_shape G HL u y hy).1
  have hsum : (1 : Rat) ≤ (List.map Prod.fst (u.pairContribs G)).sum :=
    le_trans (hshape.2.2 hr2) (List.single_le_sum hpos _ hm1)
  have hfl : (1 : Int) ≤ Rat.floor ((List.map Prod.fst (u.pairContribs G)).sum) :=
    Rat.le_floor.mpr (by exact_mod_cast hsum)
  omega

/-- With zero accumulated travel score the impossible-travel pass
changes nothing. -/
theorem impossible_travel_id (G : GeoOracle)
    (HL : ∀ q : Rat, 1000 ≤ q → 1 ≤ G.log2q q) (u : User)
    (h : (u.impossible_travel G).1 = 0) : (u.impossible_travel G).2 = u := by
  unfold User.impossible_travel at h ⊢
  simp only at h ⊢
  by_cases hlen : u.eligIdxs.length < 2
  · rw [if_pos hlen]
  · rw [if_neg hlen] at h ⊢
    simp only at h ⊢
    have hmapi : mapi (fun i l =>
        addFlags (u.travelCount G i) FlagReason.travel l) 0 u.logins
        = u.logins := by
      apply mapi_eq_self
      intro i y hy
      simp only [Nat.zero_add]
      have hcnt : u.travelCount G i = 0 := by
        unfold User.travelCount
        simp only
        rw [List.length_eq_zero]
        apply List.filter_eq_nil.mpr
        intro p hp
        cases hrp : (u.pairContribs G).get? p with
        | none => simp [hrp]
        | some r =>
          have := travel_zero_no_tags G HL u h p r hrp
          simp [hrp, this]
      rw [hcnt, addFlags_zero]
    rw [hmapi]

/-- `UserFrame` is reflexive. -/
theorem frame_refl (u : User) : UserFrame u u :=
  ⟨rfl, rfl, rfl, rfl, rfl, rfl, rfl⟩

/-- `UserFrame` is transitive. -/
theorem frame_trans {a b c : User} (h1 : UserFrame a b)
    (h2 : UserFrame b c) : UserFrame a c := by
  obtain ⟨x1, x2, x3, x4, x5, x6, x7⟩ := h1
  obtain ⟨y1, y2, y3, y4, y5, y6, y7⟩ := h2
  exact ⟨x1.trans y1, x2.trans y2, x3.trans y3, x4.trans y4,
    x5.trans y5, x6.trans y6, x7.trans y7⟩

/-- Pushing a reason keeps the frame. -/
theorem frame_pushReason (u : User) (r : FlagReason) :
    UserFrame (pushReason u r) u :=
  ⟨rfl, rfl, rfl, rfl, rfl, rfl, rfl⟩

/-- A conditional between two framed values is framed. -/
theorem frame_ite {v1 v2 u : User} (c : Prop) [Decidable c]
    (h1 : UserFrame v1 u) (h2 : UserFrame v2 u) :
    UserFrame (if c then v1 else v2) u := by
  split
  · exact h1
  · exact h2

/-- `flag_fraud` keeps the frame. -/
theorem frame_flag_fraud (u : User) : UserFrame (u.flag_fraud).2 u :=
  ⟨rfl, mapi_length _ _ _, rfl, rfl, rfl, rfl, flag_fraud_clear u⟩

/-- `flag_dmp` keeps the frame. -/
theorem frame_flag_dmp (u : User) : UserFrame (u.flag_dmp).2 u :=
  ⟨rfl, mapi_length _ _ _, rfl, rfl, rfl, rfl, flag_dmp_clear u⟩

/-- `impossible_travel` keeps the frame. -/
theorem frame_impossible_travel (G : GeoOracle) (u : User) :
    UserFrame (u.impossible_travel G).2 u := by
  obtain ⟨_, h2, _, h4, h5, h6, h7, h8, h9⟩ := impossible_travel_frame G u
  exact ⟨h2, h4, h6, h7, h8, h9, h5⟩

/-- Setting score (and appending reasons) keeps the frame. -/
theorem frame_score_reasons (u : User) (n : Nat) (rs : List FlagReason) :
    UserFrame { u with score := n, reasons := rs } u :=
  ⟨rfl, rfl, rfl, rfl, rfl, rfl, rfl⟩

/-- A framed user resets to the same state. -/
theorem frame_resetTransient {v u : User} (h : UserFrame v u) :
    resetTransient v = resetTransient u :=
  resetTransient_ext h.2.2.1 h.1 h.2.2.2.1 h.2.2.2.2.1 h.2.2.2.2.2.1
    h.2.2.2.2.2.2

/-- Setting the score keeps the frame. -/
theorem frame_score (u : User) (n : Nat) :
    UserFrame { u with score := n } u :=
  ⟨rfl, rfl, rfl, rfl, rfl, rfl, rfl⟩

/-- The main body of pass 1 only touches transient state. -/
theorem fvcMain_frame (G : GeoOracle) (w : User) :
    UserFrame (firstVibeCheckMain G w).2 w := by
  unfold firstVibeCheckMain
  by_cases hph : w.perfectHistory = true
  · rw [if_pos hph]
    exact frame_refl w
  · rw [if_neg hph]
    by_cases hin : w.in_state = true
    · rw [if_pos hin]
      exact frame_refl w
    · rw [if_neg hin]
      simp only
      set f := w.failures with hf
      set w1 := if 0 < f then pushReason w FlagReason.failure else w with hw1
      set fr := (w1.flag_fraud).1 with hfr
      set w2 := (w1.flag_fraud).2 with hw2
      set w3 := if 0 < fr then pushReason w2 FlagReason.fraud else w2 with hw3
      set pc := w3.impossible_travel_precheck with hpc
      set tr := if pc then (w3.impossible_travel G).1 else 0 with htr
      set w4 := if pc then (w3.impossible_travel G).2 else w3 with hw4
      set w5 := if pc && decide (0 < tr) then
          { w4 with score := w4.score + tr,
                    reasons := w4.reasons ++ [FlagReason.travel] }
        else w4 with hw5
      set dm := (w5.flag_dmp).1 with hdm
      set w6 := (w5.flag_dmp).2 with hw6
      set w7 := if 0 < dm then pushReason w6 FlagReason.dmp else w6 with hw7
      have F1 : UserFrame w1 w := by
        rw [hw1]
        exact frame_ite _ (frame_pushReason w _) (frame_refl w)
      have F2 : UserFrame w2 w := by
        rw [hw2]
        exact frame_trans (frame_flag_fraud w1) F1
      have F3 : UserFrame w3 w := by
        rw [hw3]
        exact frame_ite _ (frame_trans (frame_pushReason w2 _) F2) F2
      have F4 : UserFrame w4 w := by
        rw [hw4]
        exact frame_ite _ (frame_trans (frame_impossible_travel G w3) F3) F3
      have F5 : UserFrame w5 w := by
        rw [hw5]
        exact frame_ite _ (frame_trans (frame_score_reasons w4 _ _) F4) F4
      have F6 : UserFrame w6 w := by
        rw [hw6]
        exact frame_trans (frame_flag_dmp w5) F5
      have F7 : UserFrame w7 w := by
        rw [hw7]
        exact frame_ite _ (frame_trans (frame_pushReason w6 _) F6) F6
      exact frame_trans (frame_score w7 _) F7

/-- `pushReason` keeps the score. -/
theorem pushReason_score (u : User) (r : FlagReason) :
    (pushReason u r).score = u.score := rfl

/-- `flag_fraud` keeps the score. -/
theorem flag_fraud_score (u : User) : (u.flag_fraud).2.score = u.score := rfl

/-- `flag_dmp` keeps the score. -/
theorem flag_dmp_score (u : User) : (u.flag_dmp).2.score = u.score := rfl

/-- The count returned by `flag_fraud`. -/
theorem flag_fraud_fst (u : User) : (u.flag_fraud).1 = u.fraud := rfl

/-- The count returned by `flag_dmp`. -/
theorem flag_dmp_fst (u : User) : (u.flag_dmp).1 = u.dmpCount := rfl

/-- On a transient-free user, a zero resulting score means the main
body of pass 1 changed nothing at all. -/
theorem fvcMain_clean_fix (G : GeoOracle)
    (HL : ∀ q : Rat, 1000 ≤ q → 1 ≤ G.log2q q) (w : User)
    (h0 : w.score = 0) (_hre : w.reasons = [])
    (_hfl : ∀ l ∈ w.logins, l.flag_reasons = [])
    (hz : (firstVibeCheckMain G w).2.score = 0) :
    (firstVibeCheckMain G w).2 = w := by
  unfold firstVibeCheckMain at hz ⊢
  by_cases hph : w.perfectHistory = true
  · rw [if_pos hph]
  · rw [if_neg hph] at hz ⊢
    by_cases hin : w.in_state = true
    · rw [if_pos hin]
    · rw [if_neg hin] at hz ⊢
      simp only at hz ⊢
      set f := w.failures with hf
      set w1 := if 0 < f then pushReason w FlagReason.failure else w with hw1
      set fr := (w1.flag_fraud).1 with hfr
      set w2 := (w1.flag_fraud).2 with hw2
      set w3 := if 0 < fr then pushReason w2 FlagReason.fraud else w2 with hw3
      set pc := w3.impossible_travel_precheck with hpc
      set tr := if pc then (w3.impossible_travel G).1 else 0 with htr
      set w4 := if pc then (w3.impossible_travel G).2 else w3 with hw4
      set w5 := if pc && decide (0 < tr) then
          { w4 with score := w4.score + tr,
                    reasons := w4.reasons ++ [FlagReason.travel] }
        else w4 with hw5
      set dm := (w5.flag_dmp).1 with hdm
      set w6 := (w5.flag_dmp).2 with hw6
      set w7 := if 0 < dm then pushReason w6 FlagReason.dmp else w6 with hw7
      have hz' : w7.score + f + fr * 20 + dm * 2 = 0 := hz
      have hf0 : f = 0 := by omega
      have hfr0 : fr = 0 := by omega
      have hdm0 : dm = 0 := by omega
      have hw7z : w7.score = 0 := by omega
      have e1 : w1 = w := by
        rw [hw1, if_neg (by omega)]
      have hfraud0 : w.fraud = 0 := by
        have h1 : fr = w1.fraud := by
          rw [hfr]
          exact flag_fraud_fst w1
        rw [e1] at h1
        omega
      have e2 : w2 = w := by
        rw [hw2, e1]
        exact flag_fraud_id hfraud0
      have e3 : w3 = w := by
        rw [hw3, if_neg (by omega), e2]
      have hs3 : w3.score = 0 := by
        rw [e3]
        exact h0
      have hs4 : w4.score = 0 := by
        rw [hw4]
        split
        · rw [(impossible_travel_frame G w3).1]
          exact hs3
        · exact hs3
      have hcondF : (pc && decide (0 < tr)) = false := by
        cases hc : (pc && decide (0 < tr)) with
        | false => rfl
        | true =>
          exfalso
          have hs5 : w5.score = w4.score + tr := by
            rw [hw5, if_pos hc]
          have hs6 : w6.score = w5.score := by
            rw [hw6]
            exact flag_dmp_score w5
          have hs7 : w7.score = w6.score := by
            rw [hw7]
            split
            · exact pushReason_score w6 _
            · rfl
          simp only [Bool.and_eq_true, decide_eq_true_eq] at hc
          omega
      have e4 : w4 = w := by
        rw [hw4]
        split
        next hpcT =>
          have htr0 : tr = 0 := by
            cases hc2 : decide (0 < tr) with
            | true =>
              exfalso
              have : (pc && decide (0 < tr)) = true := by
                rw [hpc] at hpcT ⊢
                simp [hpcT, hc2]
              rw [this] at hcondF
              cases hcondF
            | false =>
              have := of_decide_eq_false hc2
              omega
          have htr' : (w3.impossible_travel G).1 = 0 := by
            rw [htr, if_pos hpcT] at htr0
            exact htr0
          rw [e3] at htr' ⊢
          exact impossible_travel_id G HL w htr'
        next => exact e3
      have e5 : w5 = w := by
        rw [hw5, hcondF]
        simp only [Bool.false_eq_true, if_false]
        exact e4
      have hdmc0 : w.dmpCount = 0 := by
        have h1 : dm = w5.dmpCount := by
          rw [hdm]
          exact flag_dmp_fst w5
        rw [e5] at h1
        omega
      have e6 : w6 = w := by
        rw [hw6, e5]
        exact flag_dmp_id hdmc0
      have e7 : w7 = w := by
        rw [hw7, if_neg (by omega), e6]
      show { w7 with score := w7.score + f + fr * 20 + dm * 2 } = w
      rw [e7]
      have hh : w.score + f + fr * 20 + dm * 2 = w.score := by omega
      rw [hh]

/-- C4 (amended): pass 1 is idempotent on every account whose transient
state is consistent with its score — if `score = 0` then `reasons` and
every record's flag set are empty (true of freshly-built accounts and
of any account a previous run produced).  Running `first_vibe_check`
twice then returns the same verdict and the same final state as running
it once.  The log2 hypothesis (true of `f32::log2`, since
`log2(1000) > 1`) makes every triggered travel pair worth at least one
point. -/
theorem c4_first_vibe_check_idem (G : GeoOracle)
    (HL : ∀ q : Rat, 1000 ≤ q → 1 ≤ G.log2q q) (u : User)
    (hclean : u.score = 0 →
      u.reasons = [] ∧ ∀ l ∈ u.logins, l.flag_reasons = []) :
    ((u.first_vibe_check G).2).first_vibe_check G = u.first_vibe_check G := by
  by_cases htriv : (u.checked_login_count == 0 || u.logins.isEmpty) = true
  · have h1 : u.first_vibe_check G = (true, u) := by
      unfold User.first_vibe_check
      rw [if_pos htriv]
    rw [h1]
    exact h1
  · have h1 : u.first_vibe_check G = firstVibeCheckMain G (resetTransient u) := by
      unfold User.first_vibe_check
      rw [if_neg htriv]
      simp only
      congr 1
      by_cases hsc : u.score = 0
      · rw [if_neg (by simp [hsc])]
        obtain ⟨hr, hf⟩ := hclean hsc
        exact (resetTransient_eq_self hsc hr hf).symm
      · rw [if_pos hsc]
    set w := resetTransient u with hwdef
    have hwscore : w.score = 0 := rfl
    have hwreas : w.reasons = [] := rfl
    have hwflags : ∀ l ∈ w.logins, l.flag_reasons = [] := by
      intro l hl
      rw [hwdef] at hl
      simp only [resetTransient] at hl
      obtain ⟨y, hy, hly⟩ := List.mem_map.mp hl
      rw [← hly]
      rfl
    have hresetw : resetTransient w = w :=
      resetTransient_eq_self hwscore hwreas hwflags
    rw [h1]
    set v := (firstVibeCheckMain G w).2 with hv
    have hVF : UserFrame v w := by
      rw [hv]
      exact fvcMain_frame G w
    have hc : v.checked_login_count = u.checked_login_count := hVF.1
    have hlen : v.logins.length = u.logins.length := by
      rw [hVF.2.1, hwdef]
      simp [resetTransient]
    have hguardv : ¬(v.checked_login_count == 0 || v.logins.isEmpty) = true := by
      intro hcon
      apply htriv
      simp only [Bool.or_eq_true, beq_iff_eq] at hcon ⊢
      rcases hcon with hcon | hcon
      · left
        rw [← hc]
        exact hcon
      · right
        rw [List.isEmpty_iff] at hcon ⊢
        have h0 : v.logins.length = 0 := by
          rw [hcon]
          rfl
        rw [hlen] at h0
        exact List.length_eq_zero.mp h0
    unfold User.first_vibe_check
    rw [if_neg hguardv]
    simp only
    by_cases hvs : v.score = 0
    · have hfix : v = w := by
        rw [hv]
        apply fvcMain_clean_fix G HL w hwscore hwreas hwflags
        rw [← hv]
        exact hvs
      rw [if_neg (by simp [hvs])]
      rw [hfix]
    · rw [if_pos hvs]
      have hrv : resetTransient v = w := by
        rw [frame_resetTransient hVF]
        exact hresetw
      rw [hrv]

/-- C4 witness: a clean account with one checked failure record reaches
the same state and verdict under a second run. -/
theorem c4_first_vibe_check_idem_w :
    ((userClean.first_vibe_check oracleW).2).first_vibe_check oracleW
      = userClean.first_vibe_check oracleW :=
  c4_first_vibe_check_idem oracleW
    (fun _ _ => by norm_num [oracleW]) userClean (by decide)

/-- C4 counterexample to the claim as stated ("for every account"):
`userDirty` has score 0 but a stale `Travel` flag on its checked failed
record.  The reset is keyed on `score != 0`, so the first run keeps the
stale flag (and scores the failure), while the second run — seeing the
nonzero score — clears it: the per-record flag sets after the two runs
differ. -/
theorem c4_stale_flag_cleared_second_run :
    ((userDirty.first_vibe_check oracle0).2).logins.map
        (fun l => l.flag_reasons) = [[FlagReason.travel]]
    ∧ ((((userDirty.first_vibe_check oracle0).2).first_vibe_check
        oracle0).2).logins.map (fun l => l.flag_reasons) = [[]]
    ∧ (((userDirty.first_vibe_check oracle0).2).first_vibe_check oracle0).2
        ≠ (userDirty.first_vibe_check oracle0).2 := by
  refine ⟨by decide, by decide, by decide⟩
